import Mathlib

/-!
# google-auth-wizard: a shallow embedding and its checked properties

The Go packages `utils`, `storage`, `auth` and `main` are embedded as pure
functions over explicit environments (port availability, clock, cache file,
handshake event).  Effects are recorded as ordered traces.

Conventions
* Go `int` is the 64-bit two's-complement integer: values are `Int`, and every
  addition the source performs is wrapped with `wrapInt`.
* `time.Time` is an instant counted in nanoseconds from Go's zero time
  (January 1, year 1, 00:00:00 UTC), so `IsZero` is `= 0`.
* `error` values are `GoError`; `none` stands for `nil`.
-/

namespace GoogleAuthWizard

/-! ## Shared Go runtime notions -/

/-- Smallest value of Go's `int` on a 64-bit platform. -/
def minInt : Int := -9223372036854775808

/-- Largest value of Go's `int` on a 64-bit platform. -/
def maxInt : Int := 9223372036854775807

/-- Two's-complement wrap-around of an integer result into Go's 64-bit `int`. -/
def wrapInt (x : Int) : Int := (x + 9223372036854775808) % 18446744073709551616 - 9223372036854775808

/-- Membership in the range of Go's `int`. -/
def isInt (x : Int) : Prop := minInt ≤ x ∧ x ≤ maxInt

instance (x : Int) : Decidable (isInt x) :=
  inferInstanceAs (Decidable (minInt ≤ x ∧ x ≤ maxInt))

/-- Go `error` values: a plain message (`fmt.Errorf` without `%w`) or a message
prefix wrapping a cause (`fmt.Errorf("prefix%w", cause)`). -/
inductive GoError where
  | msg (text : String)
  | wrap (pfx : String) (cause : GoError)
  deriving DecidableEq, Repr

/-- The method `Error()` of an error value. -/
def GoError.Error : GoError → String
  | .msg t => t
  | .wrap p c => p ++ c.Error

/-- The function `errors.Unwrap`. -/
def GoError.Unwrap : GoError → Option GoError
  | .msg _ => none
  | .wrap _ c => some c

namespace utils

/-- Outcome of `FindAvailablePort`: the two Go results and, in order, the ports
handed to `isPortAvailable`. -/
structure PortResult where
  port : Int
  err : Option GoError
  probed : List Int
  deriving DecidableEq, Repr

/-- The `for` loop of `FindAvailablePort`, started at `port` with the loop bound
`hi = defaultPort+maxPortTries` already computed. The first component lists the
probed ports, the second is the port returned from inside the loop, if any.
The `Nat` argument bounds the number of iterations. -/
def scanPorts (isPortAvailable : Int → Bool) (hi : Int) : Nat → Int → List Int × Option Int
  | 0, _ => ([], none)
  | n + 1, port =>
    if port < hi then
      if isPortAvailable port then ([port], some port)
      else
        let r := scanPorts isPortAvailable hi n (wrapInt (port + 1))
        (port :: r.1, r.2)
    else ([], none)

/-- Embedding of `utils.FindAvailablePort` (src/utils/utils.go:77-84). The probe
`isPortAvailable` is the environment's answer for each port. The loop runs at
most `hi - defaultPort` times, which is the iteration bound given to `scanPorts`. -/
def FindAvailablePort (isPortAvailable : Int → Bool) (defaultPort maxPortTries : Int) : PortResult :=
  let hi := wrapInt (defaultPort + maxPortTries)
  let r := scanPorts isPortAvailable hi (hi - defaultPort).toNat defaultPort
  match r.2 with
  | some port => { port := port, err := none, probed := r.1 }
  | none =>
    { port := 0
      err := some (.msg ("no available port found in range " ++ toString defaultPort ++ "-"
        ++ toString (wrapInt (wrapInt (defaultPort + maxPortTries) - 1))))
      probed := r.1 }

end utils

namespace config

/-- The section `Server` of `config.Config`; durations are nanoseconds. -/
structure ServerConfig where
  DefaultPort : Int
  MaxPortTries : Int
  ServerTimeout : Int
  deriving DecidableEq, Repr

/-- The section `OAuth` of `config.Config`. -/
structure OAuthSection where
  CallbackPath : String
  OAuthPlaygroundURL : String
  ScopeEndpoint : String
  ScopeTimeout : Int
  deriving DecidableEq, Repr

/-- The section `Terminal` of `config.Config`. -/
structure TerminalConfig where
  Height : Int
  deriving DecidableEq, Repr

/-- Embedding of `config.Config` (src/config/config.go:14-31). -/
structure Config where
  Server : ServerConfig
  OAuth : OAuthSection
  Terminal : TerminalConfig
  deriving DecidableEq, Repr

/-- Embedding of `config.GetDefaultConfig` (src/config/config.go:69-97). -/
def GetDefaultConfig : Config :=
  { Server := { DefaultPort := 8080, MaxPortTries := 10, ServerTimeout := 5 * 60000000000 }
    OAuth :=
      { CallbackPath := "/callback"
        OAuthPlaygroundURL := "https://developers.google.com/oauthplayground"
        ScopeEndpoint := "getScopes"
        ScopeTimeout := 60 * 1000000000 }
    Terminal := { Height := 20 } }

end config

/-! ## Time and tokens -/

/-- An instant of `time.Time`, in nanoseconds since Go's zero time. -/
abbrev Time := Int

/-- The constant `time.Minute`, in nanoseconds. -/
def Minute : Int := 60000000000

/-- The method `Time.IsZero`. -/
def Time.IsZero (t : Time) : Bool := decide (t = 0)

/-- The method `Time.Add`. -/
def Time.Add (t : Time) (d : Int) : Time := t + d

/-- The method `Time.After`: strictly later. Instants are compared on the wall
clock, as Go does when one side (here an expiry read from the cache or from
the token endpoint's answer) carries no monotonic reading. -/
def Time.After (t u : Time) : Bool := decide (u < t)

/-- The fields of `oauth2.Token` that the program reads or stores. -/
structure Token where
  AccessToken : String
  TokenType : String
  RefreshToken : String
  Expiry : Time
  deriving DecidableEq, Repr

namespace storage

/-- Embedding of `storage.StoredToken` (src/storage/token.go:17-22); the pointer
field `Token` is `none` when nil. -/
structure StoredToken where
  Token : Option Token
  Scopes : List String
  SavedAt : Time
  ExpiresAt : Time
  deriving DecidableEq, Repr

/-- Embedding of `StoredToken.IsValid` (src/storage/token.go:97-107); `now` is the
value of `time.Now()`. -/
def StoredToken.IsValid (st : StoredToken) (now : Time) : Bool :=
  match st.Token with
  | none => false
  | some tok =>
    if !tok.Expiry.IsZero && (now.Add (5 * Minute)).After tok.Expiry then false
    else true

/-- A Go `map[string]bool`, read through indexing: absent keys give `false`. -/
abbrev ScopeMap := String → Bool

/-- The statement `scopeMap[scope] = true`. -/
def ScopeMap.set (m : ScopeMap) (scope : String) : ScopeMap :=
  fun k => if k = scope then true else m k

/-- The second loop of `HasScopes`: the first requested scope missing from the
map makes the result `false`. -/
def checkRequired (scopeMap : ScopeMap) : List String → Bool
  | [] => true
  | required :: rest => if !scopeMap required then false else checkRequired scopeMap rest

/-- Embedding of `StoredToken.HasScopes` (src/storage/token.go:109-126). -/
def StoredToken.HasScopes (st : StoredToken) (requiredScopes : List String) : Bool :=
  if requiredScopes.length = 0 then true
  else
    let scopeMap : ScopeMap := st.Scopes.foldl ScopeMap.set (fun _ => false)
    checkRequired scopeMap requiredScopes

/-- State of the file system at `ts.filepath`, the path of the token cache, and
the outcome of each system call the cache makes on it: the bytes of the file
(`none` when there is no such file) and, for each call, the error with which
it fails, if it does. `statErr` and `readErr` are errors other than "does not
exist"; that error is what a missing file gives. -/
structure CacheFile where
  /-- The field `filepath` of `TokenStorage`. -/
  filepath : String
  /-- The value of `filepath.Dir(ts.filepath)`. -/
  dir : String
  data : Option String
  statErr : Option GoError
  readErr : Option GoError
  mkdirErr : Option GoError
  writeErr : Option GoError
  removeErr : Option GoError
  deriving DecidableEq, Repr

/-- The library `encoding/json` for `StoredToken` values, taken as a parameter:
`json.MarshalIndent` and `json.Unmarshal`. -/
structure JSONCodec where
  Marshal : StoredToken → Except GoError String
  Unmarshal : String → Except GoError StoredToken

/-- Embedding of `TokenStorage.Exists` (src/storage/token.go:80-83): true unless
`os.Stat` reports that the file does not exist. -/
def Exists (fs : CacheFile) : Bool :=
  match fs.statErr with
  | some _ => true
  | none => fs.data.isSome

/-- Embedding of `TokenStorage.Load` (src/storage/token.go:63-78). -/
def Load (json : JSONCodec) (fs : CacheFile) : Except GoError StoredToken :=
  match fs.readErr with
  | some err => .error (.wrap "failed to read token file: " err)
  | none =>
    match fs.data with
    | none => .error (.msg ("token file not found: " ++ fs.filepath))
    | some data =>
      match json.Unmarshal data with
      | .error err => .error (.wrap "failed to parse token file: " err)
      | .ok storedToken => .ok storedToken

/-- Embedding of `TokenStorage.Save` (src/storage/token.go:38-61); `now` is the
value of `time.Now()`. Returns the error, if any, and the file system after;
a failing `os.WriteFile` is taken to leave the file as it was. -/
def Save (json : JSONCodec) (fs : CacheFile) (now : Time) (token : Token) (scopes : List String) :
    Option GoError × CacheFile :=
  match fs.mkdirErr with
  | some err => (some (.wrap ("failed to create directory " ++ fs.dir ++ ": ") err), fs)
  | none =>
    let storedToken : StoredToken :=
      { Token := some token, Scopes := scopes, SavedAt := now, ExpiresAt := token.Expiry }
    match json.Marshal storedToken with
    | .error err => (some (.wrap "failed to marshal token: " err), fs)
    | .ok data =>
      match fs.writeErr with
      | some err => (some (.wrap "failed to write token file: " err), fs)
      | none => (none, { fs with data := some data })

/-- Embedding of `TokenStorage.Delete` (src/storage/token.go:85-95). -/
def Delete (fs : CacheFile) : Option GoError × CacheFile :=
  if !Exists fs then (none, fs)
  else
    match fs.removeErr with
    | some err => (some (.wrap "failed to delete token file: " err), fs)
    | none => (none, { fs with data := none })

/-- A sample JSON library that encodes one stored token only (every other
value is refused, as the library refuses times outside the years 0..9999) and
decodes every text to that stored token. -/
def sampleCodec (st : StoredToken) : JSONCodec :=
  { Marshal := fun s =>
      if s = st then .ok "\x7b\"scopes\": []\x7d" else .error (.msg "json: unsupported value")
    Unmarshal := fun _ => .ok st }

end storage

/-! ## Channels and the HTTP response writer -/

/-- A buffered Go channel: its capacity and the values waiting in the buffer. -/
structure Chan (α : Type) where
  cap : Nat
  buf : List α
  deriving DecidableEq, Repr

/-- The expression `make(chan T, cap)`. -/
def Chan.make {α : Type} (cap : Nat) : Chan α := { cap := cap, buf := [] }

/-- A send `c <- v` with no receiver parked on the channel: it completes when the
buffer has room (`some` of the channel after), and blocks otherwise (`none`). -/
def Chan.send {α : Type} (c : Chan α) (v : α) : Option (Chan α) :=
  if c.buf.length < c.cap then some { c with buf := c.buf ++ [v] } else none

namespace auth

/-- The constant `MISSING_AUTH_CODE_MSG` (src/auth/oauth.go:35). -/
def MISSING_AUTH_CODE_MSG : String := "missing authorization code"

/-- The constant `CODE_EXCHANGE_FAILED_MSG` (src/auth/oauth.go:36). -/
def CODE_EXCHANGE_FAILED_MSG : String := "code exchange failed"

/-- The constant `DEFAULT_STATE_TOKEN` (src/auth/oauth.go:17). -/
def DEFAULT_STATE_TOKEN : String := "state-token"

/-- The constant `DEFAULT_SERVER_STARTUP_DELAY` (src/auth/oauth.go:37), in nanoseconds. -/
def DEFAULT_SERVER_STARTUP_DELAY : Int := 100000000

/-- The constant `SUCCESS_HTML_TEMPLATE` (src/auth/oauth.go:19-33). -/
def SUCCESS_HTML_TEMPLATE : String :=
  "<!DOCTYPE html>\n<html>\n<head>\n    <title>Authorization Successful</title>\n    <style>\n        body \x7b font-family: Arial, sans-serif; text-align: center; padding: 50px; \x7d\n        .success \x7b color: green; font-size: 24px; margin-bottom: 20px; \x7d\n        .info \x7b color: #666; \x7d\n    </style>\n</head>\n<body>\n    <div class=\"success\">✅ Authorization Successful!</div>\n    <div class=\"info\">You can close this window and return to the terminal.</div>\n</body>\n</html>"

/-- The constant `http.StatusBadRequest`. -/
def StatusBadRequest : Nat := 400

/-- The constant `http.StatusInternalServerError`. -/
def StatusInternalServerError : Nat := 500

/-- The constant `http.StatusOK`. -/
def StatusOK : Nat := 200

/-- The query of a callback request, as `r.URL.Query()` parses it: the
key/value pairs in order of appearance. -/
structure Request where
  query : List (String × String)
  deriving DecidableEq, Repr

/-- The method `url.Values.Get`: the first value stored under the key, and the
empty string when there is none. -/
def Request.Get (r : Request) (key : String) : String :=
  match r.query.find? (fun kv => kv.1 = key) with
  | some kv => kv.2
  | none => ""

/-- One effect of the callback handler, in source terms. -/
inductive HandlerEvent where
  /-- The call `config.Exchange(context.Background(), code)`. -/
  | exchange (code : String)
  /-- A completed send `errChan <- err`. -/
  | sendErr (err : GoError)
  /-- A completed send `tokenChan <- token`. -/
  | sendToken (token : Token)
  /-- The call `http.Error(w, body, status)`. -/
  | httpError (body : String) (status : Nat)
  /-- The call `w.Header().Set(key, value)`. -/
  | headerSet (key value : String)
  /-- The call `fmt.Fprint(w, body)`. -/
  | fprint (body : String)
  deriving DecidableEq, Repr

/-- Whether the event writes a response to the client. -/
def HandlerEvent.isResponse : HandlerEvent → Bool
  | .httpError _ _ => true
  | .fprint _ => true
  | _ => false

/-- Whether the event is a send on the error channel. -/
def HandlerEvent.isSendErr : HandlerEvent → Bool
  | .sendErr _ => true
  | _ => false

/-- Whether the event is a send on the token channel. -/
def HandlerEvent.isSendToken : HandlerEvent → Bool
  | .sendToken _ => true
  | _ => false

/-- Whether the event is a call of the token exchange. -/
def HandlerEvent.isExchange : HandlerEvent → Bool
  | .exchange _ => true
  | _ => false

/-- What `net/http` makes of the calls on the response writer: the status line
is fixed by the first call that writes (`http.Error` gives its status, a plain
write without `WriteHeader` gives 200). -/
def responseStatus : List HandlerEvent → Option Nat
  | [] => none
  | .httpError _ status :: _ => some status
  | .fprint _ :: _ => some StatusOK
  | _ :: rest => responseStatus rest

/-- One run of the callback handler: the effects in the order they happen, the
two channels afterwards, and whether the handler returned (`false` when it is
left blocked on a send). -/
structure HandlerRun where
  events : List HandlerEvent
  tokenChan : Chan Token
  errChan : Chan GoError
  returned : Bool
  deriving DecidableEq, Repr

/-- Embedding of the function returned by `createCallbackHandler`
(src/auth/oauth.go:100-121). `Exchange` is the answer of `config.Exchange` for
each code. -/
def createCallbackHandler (Exchange : String → Except GoError Token)
    (tokenChan : Chan Token) (errChan : Chan GoError) (r : Request) : HandlerRun :=
  let code := r.Get "code"
  if code = "" then
    let err := GoError.msg MISSING_AUTH_CODE_MSG
    match errChan.send err with
    | none => { events := [], tokenChan := tokenChan, errChan := errChan, returned := false }
    | some errChan1 =>
      { events := [.sendErr err, .httpError "Missing authorization code" StatusBadRequest]
        tokenChan := tokenChan, errChan := errChan1, returned := true }
  else
    match Exchange code with
    | .error cause =>
      let err := GoError.msg (CODE_EXCHANGE_FAILED_MSG ++ ": " ++ cause.Error)
      match errChan.send err with
      | none =>
        { events := [.exchange code], tokenChan := tokenChan, errChan := errChan, returned := false }
      | some errChan1 =>
        { events := [.exchange code, .sendErr err,
            .httpError "Code exchange failed" StatusInternalServerError]
          tokenChan := tokenChan, errChan := errChan1, returned := true }
    | .ok token =>
      let written : List HandlerEvent :=
        [.exchange code, .headerSet "Content-Type" "text/html; charset=utf-8",
          .fprint SUCCESS_HTML_TEMPLATE]
      match tokenChan.send token with
      | none =>
        { events := written, tokenChan := tokenChan, errChan := errChan, returned := false }
      | some tokenChan1 =>
        { events := written ++ [.sendToken token]
          tokenChan := tokenChan1, errChan := errChan, returned := true }

/-- The case of the `select` statement of `GetTokenFromLocalServer` that fires. -/
inductive SelectEvent where
  /-- A token was received from `tokenChan`. -/
  | token (t : Token)
  /-- An error was received from `errChan`. -/
  | err (e : GoError)
  /-- The timer `time.After(cfg.Server.ServerTimeout)` fired. -/
  | deadline
  deriving DecidableEq, Repr

/-- The fields of `oauth2.Config` the handshake touches. -/
structure OAuthConfig where
  ClientID : String
  Scopes : List String
  RedirectURL : String
  deriving DecidableEq, Repr

/-- Everything outside the program that one handshake depends on. -/
structure HandshakeEnv where
  /-- Answer of `isPortAvailable` for each port. -/
  isPortAvailable : Int → Bool
  /-- The library method `oauth2.Config.AuthCodeURL` with the state token. -/
  AuthCodeURL : OAuthConfig → String → String
  /-- Error returned by `utils.OpenBrowser`, if any (the source only logs it). -/
  openBrowserErr : Option GoError
  /-- The case of the `select` that fires first. -/
  event : SelectEvent
  /-- Error returned by `srv.Shutdown`, if any (the source only logs it). -/
  shutdownErr : Option GoError
  /-- Formatting of a `time.Duration` with `%v`. -/
  fmtDuration : Int → String

/-- One effect of `GetTokenFromLocalServer` on the outside world; calls of the
logger are not recorded. -/
inductive Effect where
  /-- A bind-and-release probe of a port by `isPortAvailable`. -/
  | probe (port : Int)
  /-- The call `http.HandleFunc(path, handler)`. -/
  | handleFunc (path : String)
  /-- The goroutine running `srv.ListenAndServe()` on the address is started. -/
  | listenAndServe (addr : String)
  /-- The call `time.Sleep(d)`. -/
  | sleep (d : Int)
  /-- The call `utils.OpenBrowser(url)`. -/
  | openBrowser (url : String)
  /-- The `select` statement completes with the given case. -/
  | selected (ev : SelectEvent)
  /-- The call `srv.Shutdown(context.Background())`. -/
  | shutdown
  deriving DecidableEq, Repr

/-- Whether the effect is a call of `srv.Shutdown`. -/
def Effect.isShutdown : Effect → Bool
  | .shutdown => true
  | _ => false

/-- The two Go results of `GetTokenFromLocalServer` and its effects in order. -/
structure HandshakeResult where
  token : Option Token
  err : Option GoError
  effects : List Effect
  deriving DecidableEq, Repr

/-- Embedding of `auth.GetTokenFromLocalServer` (src/auth/oauth.go:48-98). -/
def GetTokenFromLocalServer (env : HandshakeEnv) (cfg : config.Config) (conf : OAuthConfig) :
    HandshakeResult :=
  let found := utils.FindAvailablePort env.isPortAvailable cfg.Server.DefaultPort cfg.Server.MaxPortTries
  let probes := found.probed.map Effect.probe
  match found.err with
  | some err =>
    { token := none, err := some (.wrap "error finding available port: " err), effects := probes }
  | none =>
    let port := found.port
    let conf1 := { conf with
      RedirectURL := "http://localhost:" ++ toString port ++ cfg.OAuth.CallbackPath }
    let serverAddr := ":" ++ toString port
    let authURL := env.AuthCodeURL conf1 DEFAULT_STATE_TOKEN
    let started : List Effect := probes ++
      [.handleFunc cfg.OAuth.CallbackPath, .listenAndServe serverAddr,
        .sleep DEFAULT_SERVER_STARTUP_DELAY, .openBrowser authURL, .selected env.event]
    match env.event with
    | .token token => { token := some token, err := none, effects := started ++ [.shutdown] }
    | .err err =>
      { token := none, err := some (.wrap "authorization error: " err), effects := started }
    | .deadline =>
      { token := none
        err := some (.msg ("timeout: authorization not received within "
          ++ env.fmtDuration cfg.Server.ServerTimeout))
        effects := started }

/-- A sample outside world for one handshake: only port 8080 is free, the
browser opens, and the `select` statement completes with the given case. -/
def sampleHandshake (ev : SelectEvent) : HandshakeEnv :=
  { isPortAvailable := fun p => decide (p = 8080)
    AuthCodeURL := fun conf state =>
      "https://accounts.google.com/o/oauth2/auth?state=" ++ state ++ "&redirect_uri="
        ++ conf.RedirectURL
    openBrowserErr := none
    event := ev
    shutdownErr := none
    fmtDuration := fun _ => "5m0s" }

/-- A sample client configuration requesting one scope. -/
def sampleOAuthConfig : OAuthConfig :=
  { ClientID := "test-client-id"
    Scopes := ["https://www.googleapis.com/auth/gmail.readonly"]
    RedirectURL := "" }

/-- A sample token. -/
def sampleToken : Token :=
  { AccessToken := "ya29.a0AfB_byC", TokenType := "Bearer", RefreshToken := "1//0g", Expiry := 0 }

/-- Embedding of `auth.CreateOAuthConfig` (src/auth/oauth.go:40-46);
`ConfigFromJSON` is the answer of `google.ConfigFromJSON` for the credentials
read at start-up and the given scopes. -/
def CreateOAuthConfig (ConfigFromJSON : List String → Except GoError OAuthConfig)
    (selectedScopes : List String) : Except GoError OAuthConfig :=
  match ConfigFromJSON selectedScopes with
  | .error err => .error (.wrap "failed to create OAuth config: " err)
  | .ok conf => .ok conf

end auth

namespace main

open storage auth

/-- Everything outside `run` that one execution depends on, from the point
where the configuration, the flags and the credentials file have been read. -/
structure RunEnv where
  /-- Error returned by `fetchGoogleScopes`, if any. -/
  fetchErr : Option GoError
  /-- Error returned by `terminal.Run`, if any. -/
  terminalErr : Option GoError
  /-- The scopes returned by `terminal.Run`. -/
  selectedScopes : List String
  /-- The value of `terminal.HasBeenValidated()`. -/
  hasBeenValidated : Bool
  /-- Answer of `google.ConfigFromJSON` for the credentials and the given scopes. -/
  ConfigFromJSON : List String → Except GoError OAuthConfig
  /-- Whether `os.Getenv("GOOGLE_AUTH_WIZARD_FORCE_NEW") == "true"`. -/
  forceNew : Bool
  /-- The library `encoding/json`. -/
  json : JSONCodec
  /-- The token cache file when `run` starts. -/
  fs : CacheFile
  /-- The value of `time.Now()` read by `IsValid`. -/
  nowCheck : Time
  /-- The value of `time.Now()` read by `Save`. -/
  nowSave : Time
  /-- The outside world of the handshake. -/
  handshake : HandshakeEnv
  /-- The value of `logger.IsDebug()`. -/
  isDebug : Bool

/-- One effect of `run`, in source terms. -/
inductive RunEffect where
  /-- The call `fetchGoogleScopes(cfg)`. -/
  | fetchScopes
  /-- The call `terminal.Run(...)`. -/
  | terminalRun
  /-- The call `printSelectedScopes(selectedScopes)`. -/
  | printScopes (scopes : List String)
  /-- The call `tokenStorage.Exists()`. -/
  | cacheExists
  /-- The call `tokenStorage.Load()`. -/
  | cacheLoad
  /-- The call `auth.GetTokenFromLocalServer(cfg, config)` with its own effects. -/
  | getToken (effects : List Effect)
  /-- The call `tokenStorage.Save(token, selectedScopes)`. -/
  | cacheSave (token : Token) (scopes : List String)
  /-- A call `tokenStorage.Delete()`. -/
  | cacheDelete
  /-- The call `godump.Dump(token)`. -/
  | dump (token : Token)
  /-- The call `logger.Print("Access token: %s\n", preview)`, with the bytes of the preview. -/
  | printPreview (preview : List Nat)
  deriving DecidableEq, Repr

/-- Whether the effect is a call of `GetTokenFromLocalServer`. -/
def RunEffect.isGetToken : RunEffect → Bool
  | .getToken _ => true
  | _ => false

/-- Whether the effect writes to the token cache (`Save` or `Delete`). -/
def RunEffect.isCacheWrite : RunEffect → Bool
  | .cacheSave _ _ => true
  | .cacheDelete => true
  | _ => false

/-- How `run` ends: the error it returns (`none` for nil), whether it stopped in
a run-time panic instead, the token in hand when it ended, its effects in
order, and the token cache file afterwards. -/
structure RunResult where
  err : Option GoError
  panicked : Bool
  token : Option Token
  effects : List RunEffect
  fs : CacheFile
  deriving DecidableEq, Repr

/-- The bytes of a Go string. -/
def goBytes (s : String) : List Nat := s.toUTF8.data.toList.map UInt8.toNat

/-- Lines 71-86 of `run` (src/main.go): the token taken from the cache, if
any, and the cache calls made. -/
def cachedToken (env : RunEnv) : Option Token × List RunEffect :=
  if env.forceNew then (none, [])
  else if !Exists env.fs then (none, [.cacheExists])
  else
    match Load env.json env.fs with
    | .error _ => (none, [.cacheExists, .cacheLoad])
    | .ok storedToken =>
      if storedToken.IsValid env.nowCheck && storedToken.HasScopes env.selectedScopes then
        (storedToken.Token, [.cacheExists, .cacheLoad])
      else (none, [.cacheExists, .cacheLoad])

/-- Lines 103-108 of `run` (src/main.go): the token is dumped in debug mode;
otherwise the slice `token.AccessToken[:10]` is taken, which panics when the
access token has fewer than 10 bytes. -/
def showToken (env : RunEnv) (token : Token) (effects : List RunEffect) (fs : CacheFile) :
    RunResult :=
  if env.isDebug then
    { err := none, panicked := false, token := some token
      effects := effects ++ [.dump token], fs := fs }
  else if (goBytes token.AccessToken).length < 10 then
    { err := none, panicked := true, token := some token, effects := effects, fs := fs }
  else
    { err := none, panicked := false, token := some token
      effects := effects ++
        [.printPreview ((goBytes token.AccessToken).take 10 ++ goBytes "...")]
      fs := fs }

/-- Embedding of `run` (src/main.go:26-111) from the call of `fetchGoogleScopes` on. -/
def run (env : RunEnv) (cfg : config.Config) : RunResult :=
  match env.fetchErr with
  | some err =>
    { err := some (.wrap "failed to fetch Google scopes: " err), panicked := false
      token := none, effects := [.fetchScopes], fs := env.fs }
  | none =>
    match env.terminalErr with
    | some err =>
      { err := some (.wrap "terminal error: " err), panicked := false
        token := none, effects := [.fetchScopes, .terminalRun], fs := env.fs }
    | none =>
      if !env.hasBeenValidated then
        { err := none, panicked := false, token := none
          effects := [.fetchScopes, .terminalRun], fs := env.fs }
      else
        let pre : List RunEffect :=
          [.fetchScopes, .terminalRun, .printScopes env.selectedScopes]
        if env.selectedScopes.length = 0 then
          { err := some (.msg "no OAuth scopes selected. Please run the application again and select at least one scope to proceed with authentication")
            panicked := false, token := none, effects := pre, fs := env.fs }
        else
          match CreateOAuthConfig env.ConfigFromJSON env.selectedScopes with
          | .error err =>
            { err := some (.wrap "failed to create OAuth config: " err), panicked := false
              token := none, effects := pre, fs := env.fs }
          | .ok conf =>
            let cached := cachedToken env
            match cached.1 with
            | some token => showToken env token (pre ++ cached.2) env.fs
            | none =>
              let hs := GetTokenFromLocalServer env.handshake cfg conf
              let eff := pre ++ cached.2 ++ [.getToken hs.effects]
              match hs.err with
              | some err =>
                { err := some (.wrap "failed to get OAuth token: " err), panicked := false
                  token := none, effects := eff, fs := env.fs }
              | none =>
                match hs.token with
                | none =>
                  { err := none, panicked := true, token := none, effects := eff, fs := env.fs }
                | some token =>
                  let saved := Save env.json env.fs env.nowSave token env.selectedScopes
                  showToken env token (eff ++ [.cacheSave token env.selectedScopes]) saved.2

/-- A sample JSON library: every stored token is written as the same text and
every text is read back as the given stored token. -/
def sampleJSON (st : StoredToken) : JSONCodec :=
  { Marshal := fun _ => .ok "\x7b\x7d", Unmarshal := fun _ => .ok st }

/-- A sample execution: one scope selected and validated, a cache file holding
`sampleToken` (which never expires) saved for that scope, the given force-new
directive and the given case of the handshake `select`. -/
def sampleRun (forceNew : Bool) (ev : SelectEvent) : RunEnv :=
  { fetchErr := none
    terminalErr := none
    selectedScopes := ["https://www.googleapis.com/auth/gmail.readonly"]
    hasBeenValidated := true
    ConfigFromJSON := fun scopes => .ok { ClientID := "test-client-id", Scopes := scopes, RedirectURL := "" }
    forceNew := forceNew
    json := sampleJSON
      { Token := some sampleToken
        Scopes := ["https://www.googleapis.com/auth/gmail.readonly"]
        SavedAt := 63900000000000000000
        ExpiresAt := 0 }
    fs :=
      { filepath := "/home/user/.google-auth-wizard/token.json"
        dir := "/home/user/.google-auth-wizard"
        data := some "\x7b\x7d"
        statErr := none, readErr := none, mkdirErr := none, writeErr := none, removeErr := none }
    nowCheck := 63900000100000000000
    nowSave := 63900000200000000000
    handshake := sampleHandshake ev
    isDebug := false }

end main

/-! ## The scope selector (package `terminal`) -/

namespace terminal

/-- Embedding of `terminal.Item` (src/terminal/struct.go:21-27). -/
inductive Item where
  | mk (Title Description Value : String) (IsHeader : Bool) (Children : List Item)

/-- The field `Title` of an item. -/
def Item.Title : Item → String
  | .mk t _ _ _ _ => t

/-- The field `Description` of an item. -/
def Item.Description : Item → String
  | .mk _ d _ _ _ => d

/-- The field `Value` of an item. -/
def Item.Value : Item → String
  | .mk _ _ v _ _ => v

/-- The field `IsHeader` of an item. -/
def Item.IsHeader : Item → Bool
  | .mk _ _ _ h _ => h

/-- The field `Children` of an item. -/
def Item.Children : Item → List Item
  | .mk _ _ _ _ c => c

/-- Embedding of `terminal.ViewState` (src/terminal/struct.go:33-39). -/
inductive ViewState where
  | ViewServices
  | ViewScopes
  | ViewConfirm
  deriving DecidableEq, Repr

/-- The type `list.FilterState` of the list component. -/
inductive FilterState where
  | Unfiltered
  | Filtering
  | FilterApplied
  deriving DecidableEq, Repr

/-- The rule by which the list component places the highlight when it
paginates again (in `SetItems`, `SetWidth` and a `ResetFilter` that drops a
filter): from the index of the highlight before and the number of visible
items, the index after. The rule depends on the page size the component holds,
which is not in the sources of this program, so it is a parameter. -/
abbrev Paginate := Nat → Nat → Nat

/-- The part of the list component's `list.Model` that the selector reads or
writes: the items given with `SetItems`, the title, the width, the state of the
text filter with the items it lets through, the index of the highlighted
row among the visible items, and the component's pagination rule. -/
structure ListModel where
  items : List Item
  Title : String
  width : Int
  filterState : FilterState
  filteredItems : List Item
  index : Nat
  paginate : Paginate

/-- The method `list.Model.VisibleItems`: the filtered items while a filter is
being edited or applied, all items otherwise. -/
def ListModel.VisibleItems (l : ListModel) : List Item :=
  if l.filterState = .Unfiltered then l.items else l.filteredItems

/-- The method `list.Model.SelectedItem`: the visible item under the
highlight, `none` (nil) when there is none. -/
def ListModel.SelectedItem (l : ListModel) : Option Item :=
  l.VisibleItems.get? l.index

/-- The method `list.Model.ResetFilter`: nothing happens without a filter;
otherwise the filter is dropped, all items are visible again and the component
paginates again. -/
def ListModel.ResetFilter (l : ListModel) : ListModel :=
  if l.filterState = .Unfiltered then l
  else { l with filterState := .Unfiltered, filteredItems := []
                index := l.paginate l.index l.items.length }

/-- The method `list.Model.SetItems`: the items are replaced and the component
paginates again, which can move the highlight (to the index its pagination rule
gives for the new number of visible items); a filter still in force then has to
be computed again, which leaves no filtered item for the time being. -/
def ListModel.SetItems (l : ListModel) (items : List Item) : ListModel :=
  if l.filterState = .Unfiltered then
    { l with items := items, index := l.paginate l.index items.length }
  else { l with items := items, filteredItems := [], index := l.paginate l.index 0 }

/-- The method `list.Model.ResetSelected`: the highlight goes to the first row. -/
def ListModel.ResetSelected (l : ListModel) : ListModel :=
  { l with index := 0 }

/-- The method `list.Model.SetWidth`: the width is set and the component
paginates again. -/
def ListModel.SetWidth (l : ListModel) (width : Int) : ListModel :=
  { l with width := width, index := l.paginate l.index l.VisibleItems.length }

/-- The function `list.New` as `Run` calls it, followed by the assignment of
the title; `paginate` is the pagination rule of the component built. -/
def ListModel.New (paginate : Paginate) (items : List Item) (width : Int) : ListModel :=
  { items := items, Title := "Select Google APIs", width := width
    filterState := .Unfiltered, filteredItems := [], index := 0, paginate := paginate }

/-- The messages `tea.Msg` that `Update` tells apart: a window size, a key press
(with the text `msg.String()` gives), anything else. -/
inductive Msg where
  | WindowSizeMsg (Width Height : Int)
  | KeyMsg (keypress : String)
  | other (tag : Nat)
  deriving DecidableEq, Repr

/-- The commands `tea.Cmd` that matter to the program loop: nil, `tea.Quit`, or
some other command of the list component. -/
inductive Cmd where
  | nil
  | Quit
  | other (tag : Nat)
  deriving DecidableEq, Repr

/-- The method `Update` of the list component, taken as a parameter: it handles
every message the selector does not handle itself (moving the highlight,
editing the filter, paging). -/
abbrev ListUpdate := ListModel → Msg → ListModel × Cmd

/-- Embedding of `terminal.model` (src/terminal/struct.go:41-53), without the
back pointer to the `Terminal` that holds the styles. -/
structure model where
  list : ListModel
  choice : List String
  hasBeenValidated : Bool
  quitting : Bool
  selectedItems : List (Int × Bool)
  viewState : ViewState
  currentService : String
  serviceItems : List Item
  scopeItems : List Item
  breadcrumb : List String

/-- Embedding of `model.isSelected` (src/terminal/terminal.go:371-378). -/
def isSelected (value : String) : List String → Bool
  | [] => false
  | choice :: rest => if choice = value then true else isSelected value rest

/-- The loop of lines 316-321 of `Update`: the first entry equal to `value` is
cut out of the slice and the loop stops. -/
def removeChoice (value : String) : List String → List String
  | [] => []
  | choice :: rest => if choice = value then rest else choice :: removeChoice value rest

/-- The rows built on entering the confirmation view (lines 247-261 and
278-292 of `Update`): one row per chosen scope, then the confirm action. -/
def confirmItems (choice : List String) : List Item :=
  choice.map (fun c => Item.mk c "Selected scope" c false [])
    ++ [Item.mk "✓ Confirm Selection" "Press Enter to confirm" "confirm" false []]

/-- The statement `m.breadcrumb = m.breadcrumb[:len(m.breadcrumb)-1]` under its
guard `len(m.breadcrumb) > 1`. -/
def popBreadcrumb (breadcrumb : List String) : List String :=
  if breadcrumb.length > 1 then breadcrumb.dropLast else breadcrumb

/-- The statement `m.list.Title = m.breadcrumb[len(m.breadcrumb)-1]` under its
guard `len(m.breadcrumb) > 0`. -/
def titleFromBreadcrumb (l : ListModel) (breadcrumb : List String) : ListModel :=
  match breadcrumb.getLast? with
  | some title => { l with Title := title }
  | none => l

/-- The case `"esc"` of `Update` (src/terminal/terminal.go:178-213). -/
def updateEsc (m : model) : model × Cmd :=
  let m1 := { m with list := m.list.ResetFilter }
  match m1.viewState with
  | .ViewScopes =>
    let breadcrumb := popBreadcrumb m1.breadcrumb
    ({ m1 with
        viewState := .ViewServices
        breadcrumb := breadcrumb
        list := titleFromBreadcrumb (m1.list.SetItems m1.serviceItems) breadcrumb }, .nil)
  | .ViewConfirm =>
    let breadcrumb := popBreadcrumb m1.breadcrumb
    ({ m1 with
        viewState := .ViewScopes
        breadcrumb := breadcrumb
        list := titleFromBreadcrumb (m1.list.SetItems m1.scopeItems) breadcrumb }, .nil)
  | .ViewServices => (m1, .nil)

/-- The case `"tab"` of `Update` (src/terminal/terminal.go:215-237). -/
def updateTab (m : model) : model × Cmd :=
  if m.viewState = .ViewServices then
    match m.list.SelectedItem with
    | some i =>
      if i.IsHeader && decide (i.Children.length > 0) then
        ({ m with
            viewState := .ViewScopes
            currentService := i.Title
            scopeItems := i.Children
            breadcrumb := m.breadcrumb ++ [i.Title]
            list := ({ (m.list.ResetFilter.SetItems i.Children) with Title := i.Title }).ResetSelected
            selectedItems := [] }, .nil)
      else (m, .nil)
    | none => (m, .nil)
  else (m, .nil)

/-- The cases `ViewServices` and `ViewScopes` of the key `"enter"`
(src/terminal/terminal.go:241-299), which run the same statements. -/
def enterConfirm (m : model) : model × Cmd :=
  if m.choice.length > 0 then
    ({ m with
        viewState := .ViewConfirm
        breadcrumb := m.breadcrumb ++ ["Confirm Selection"]
        list := ({ (m.list.ResetFilter.SetItems (confirmItems m.choice)) with
          Title := "Confirm Selection" }).ResetSelected }, .nil)
  else (m, .nil)

/-- The case `"enter"` of `Update` (src/terminal/terminal.go:239-309). -/
def updateEnter (m : model) : model × Cmd :=
  match m.viewState with
  | .ViewServices => enterConfirm m
  | .ViewScopes => enterConfirm m
  | .ViewConfirm =>
    match m.list.SelectedItem with
    | some i =>
      if i.Value = "confirm" then ({ m with quitting := true, hasBeenValidated := true }, .Quit)
      else (m, .nil)
    | none => (m, .nil)

/-- The case `" "` of `Update` (src/terminal/terminal.go:311-327). -/
def updateSpace (m : model) : model × Cmd :=
  if m.viewState = .ViewScopes then
    match m.list.SelectedItem with
    | some i =>
      if !i.IsHeader && decide (i.Value ≠ "") then
        if isSelected i.Value m.choice then
          ({ m with choice := removeChoice i.Value m.choice }, .nil)
        else ({ m with choice := m.choice ++ [i.Value] }, .nil)
      else (m, .nil)
    | none => (m, .nil)
  else (m, .nil)

/-- Embedding of `model.Update` (src/terminal/terminal.go:166-338). -/
def Update (listUpdate : ListUpdate) (m : model) (msg : Msg) : model × Cmd :=
  match msg with
  | .WindowSizeMsg width _ => ({ m with list := m.list.SetWidth width }, .nil)
  | .KeyMsg keypress =>
    if keypress = "ctrl+c" ∨ keypress = "q" then ({ m with quitting := true }, .Quit)
    else if keypress = "esc" then updateEsc m
    else if keypress = "tab" then updateTab m
    else if keypress = "enter" then updateEnter m
    else if keypress = " " then updateSpace m
    else if keypress = "ctrl+l" then ({ m with list := m.list.ResetFilter }, .nil)
    else
      let r := listUpdate m.list msg
      ({ m with list := r.1 }, r.2)
  | .other tag =>
    let r := listUpdate m.list (.other tag)
    ({ m with list := r.1 }, r.2)

/-- The model that `Terminal.Run` builds before it starts the program
(src/terminal/terminal.go:42-83); `paginate` is the pagination rule of the list
component. -/
def initialModel (paginate : Paginate) (title : String) (items : List Item) : model :=
  let serviceItems := items.filter Item.IsHeader
  { list := ListModel.New paginate serviceItems 80
    choice := []
    hasBeenValidated := false
    quitting := false
    selectedItems := []
    viewState := .ViewServices
    currentService := ""
    serviceItems := serviceItems
    scopeItems := []
    breadcrumb := [title] }

/-- The loop of `tea.Program.Run`: messages are handed to `Update` one by one
until it answers `tea.Quit`; the result is the model at that point, and `none`
while the messages read so far have not ended the program. -/
def program (listUpdate : ListUpdate) : model → List Msg → Option model
  | _, [] => none
  | m, msg :: rest =>
    match Update listUpdate m msg with
    | (m1, .Quit) => some m1
    | (m1, _) => program listUpdate m1 rest

/-- Embedding of `Terminal.Run` (src/terminal/terminal.go:41-93) on the messages
the program receives: the final model, whose field `choice` is the list `Run`
returns and whose field `hasBeenValidated` is what `HasBeenValidated` reads. -/
def Run (listUpdate : ListUpdate) (paginate : Paginate) (title : String) (items : List Item)
    (msgs : List Msg) : Option model :=
  program listUpdate (initialModel paginate title items) msgs

/-- The states of the selector that some sequence of messages leads to, from the
model `Run` starts with. Messages are also followed past a `tea.Quit`, which
only adds states. -/
inductive Reachable (listUpdate : ListUpdate) (paginate : Paginate) (title : String)
    (items : List Item) : model → Prop where
  | init : Reachable listUpdate paginate title items (initialModel paginate title items)
  | step (m : model) (msg : Msg) :
      Reachable listUpdate paginate title items m →
      Reachable listUpdate paginate title items (Update listUpdate m msg).1

/-- The relation between the view and the length of the breadcrumb that every
reachable state of the selector satisfies. -/
def depthOk (m : model) : Prop :=
  match m.viewState with
  | .ViewServices => m.breadcrumb.length = 1
  | .ViewScopes => m.breadcrumb.length = 1 ∨ m.breadcrumb.length = 2
  | .ViewConfirm => m.breadcrumb.length = 2 ∨ m.breadcrumb.length = 3

/-- A sample of the list component's own key handling: `down` and `up` move the
highlight by one row within the visible items, every other message leaves the
list as it is. -/
def sampleListUpdate : ListUpdate := fun l msg =>
  if msg = .KeyMsg "down" then
    ({ l with index := if l.index + 1 < l.VisibleItems.length then l.index + 1 else l.index }, .nil)
  else if msg = .KeyMsg "up" then ({ l with index := l.index - 1 }, .nil)
  else (l, .nil)

/-- The sample catalogue of the selector scenario: two services with one scope each. -/
def sampleItems : List Item :=
  [ Item.mk "Gmail" "1 scopes available" "Gmail" true
      [Item.mk "https://www.googleapis.com/auth/gmail.readonly" "Read"
        "https://www.googleapis.com/auth/gmail.readonly" false []],
    Item.mk "Drive" "1 scopes available" "Drive" true
      [Item.mk "https://www.googleapis.com/auth/drive" "Full access"
        "https://www.googleapis.com/auth/drive" false []] ]

/-- A catalogue in which one scope has the url "confirm". -/
def collidingItems : List Item :=
  [ Item.mk "Workflow" "1 scopes available" "Workflow" true
      [Item.mk "confirm" "Confirm pending requests" "confirm" false []] ]

/-- A sample pagination rule: the highlight stays on its row when the row still
exists and goes to the last row otherwise. -/
def samplePaginate : Paginate := fun index n => if index < n then index else n - 1

/-- The model after the given key presses, from the initial model of the given
catalogue with title "Root", whether or not a key ended the program; the list
component is `sampleListUpdate` with `samplePaginate`. -/
def afterKeys (items : List Item) (keys : List String) : model :=
  keys.foldl (fun m k => (Update sampleListUpdate m (.KeyMsg k)).1)
    (initialModel samplePaginate "Root" items)

/-- The status line that `model.View` prints under the list
(src/terminal/terminal.go:347-363). -/
def statusLine (m : model) : String :=
  let status : String :=
    match m.viewState with
    | .ViewServices =>
      if m.choice.length > 0 then
        "Selected: " ++ toString m.choice.length
          ++ " scopes | Tab to enter service | Enter to confirm | Type to filter | q to quit"
      else "Tab to enter service | Type to filter | q to quit"
    | .ViewScopes =>
      "Selected: " ++ toString m.choice.length
        ++ " scopes | Space to select/deselect | Enter to confirm | Type to filter | Ctrl+L to clear filter | Esc to go back | q to quit"
    | .ViewConfirm => "Enter to confirm | Esc to go back | q to quit"
  if m.list.filterState = .Filtering then "Filtering... | Esc to cancel | Enter to apply"
  else status

/-- A sample of the list component's key handling that also opens the text
filter: the key `/` starts the editing of the filter, with every item still
visible and the highlight on the first row; every other message is handled as
in `sampleListUpdate`. -/
def filterListUpdate : ListUpdate := fun l msg =>
  if msg = .KeyMsg "/" then
    ({ l with filterState := .Filtering, filteredItems := l.items, index := 0 }, .nil)
  else sampleListUpdate l msg

end terminal

/-! ## Configuration checks and environment overrides (package `config`) -/

namespace config

/-- The process environment and the library parser the overrides call:
`os.Getenv` (the empty string for an unset variable) and `time.ParseDuration`
(`some d` when it returns no error). -/
structure Environ where
  Getenv : String → String
  ParseDuration : String → Option Int

/-- The value of a run of decimal digits, read from the left. -/
def digitsValue (digits : List Char) : Nat :=
  digits.foldl (fun acc d => 10 * acc + (d.toNat - 48)) 0

/-- The library function `strconv.Atoi` (`some n` when it returns no error):
an optional sign followed by at least one decimal digit and nothing else, the
value lying in the range of `int`. -/
def Atoi (s : String) : Option Int :=
  match s.toList with
  | [] => none
  | c :: rest =>
    let neg : Bool := decide (c = '-')
    let digits : List Char := if c = '-' ∨ c = '+' then rest else c :: rest
    if digits.isEmpty then none
    else if digits.all Char.isDigit then
      let v : Int := if neg then - (digitsValue digits : Int) else (digitsValue digits : Int)
      if minInt ≤ v ∧ v ≤ maxInt then some v else none
    else none

/-- The library function `strings.HasPrefix`. -/
def HasPrefix (s p : String) : Bool :=
  p.toList.isPrefixOf s.toList

/-- Embedding of `config.ValidateConfig` (src/config/config.go:151-181);
`fmtDuration` formats a `time.Duration` with `%v`. -/
def ValidateConfig (fmtDuration : Int → String) (config : Config) : Option GoError :=
  if config.Server.DefaultPort ≤ 0 ∨ config.Server.DefaultPort > 65535 then
    some (.msg ("invalid default port: " ++ toString config.Server.DefaultPort
      ++ " (must be between 1 and 65535)"))
  else if config.Server.MaxPortTries ≤ 0 then
    some (.msg ("invalid maxPortTries: " ++ toString config.Server.MaxPortTries
      ++ " (must be greater than 0)"))
  else if config.Server.ServerTimeout ≤ 0 then
    some (.msg ("invalid serverTimeout: " ++ fmtDuration config.Server.ServerTimeout
      ++ " (must be greater than 0)"))
  else if config.OAuth.ScopeTimeout ≤ 0 then
    some (.msg ("invalid scopeTimeout: " ++ fmtDuration config.OAuth.ScopeTimeout
      ++ " (must be greater than 0)"))
  else if config.OAuth.CallbackPath = "" then some (.msg "callbackPath cannot be empty")
  else if config.OAuth.OAuthPlaygroundURL = "" then
    some (.msg "oauthPlaygroundURL cannot be empty")
  else if config.OAuth.ScopeEndpoint = "" then some (.msg "scopeEndpoint cannot be empty")
  else none

/-- Lines 194-198 of `applyEnvironmentOverrides`: `GOOGLE_AUTH_WIZARD_PORT`. -/
def overridePort (env : Environ) (config : Config) : Config :=
  let port := env.Getenv "GOOGLE_AUTH_WIZARD_PORT"
  if port ≠ "" then
    match Atoi port with
    | some p =>
      if p > 0 ∧ p ≤ 65535 then { config with Server := { config.Server with DefaultPort := p } }
      else config
    | none => config
  else config

/-- Lines 200-204 of `applyEnvironmentOverrides`: `GOOGLE_AUTH_WIZARD_MAX_PORT_TRIES`. -/
def overrideMaxPortTries (env : Environ) (config : Config) : Config :=
  let maxTries := env.Getenv "GOOGLE_AUTH_WIZARD_MAX_PORT_TRIES"
  if maxTries ≠ "" then
    match Atoi maxTries with
    | some m =>
      if m > 0 then { config with Server := { config.Server with MaxPortTries := m } }
      else config
    | none => config
  else config

/-- Lines 206-210 of `applyEnvironmentOverrides`: `GOOGLE_AUTH_WIZARD_SERVER_TIMEOUT`. -/
def overrideServerTimeout (env : Environ) (config : Config) : Config :=
  let timeout := env.Getenv "GOOGLE_AUTH_WIZARD_SERVER_TIMEOUT"
  if timeout ≠ "" then
    match env.ParseDuration timeout with
    | some t => { config with Server := { config.Server with ServerTimeout := t } }
    | none => config
  else config

/-- Lines 212-216 of `applyEnvironmentOverrides`: `GOOGLE_AUTH_WIZARD_CALLBACK_PATH`. -/
def overrideCallbackPath (env : Environ) (config : Config) : Config :=
  let callbackPath := env.Getenv "GOOGLE_AUTH_WIZARD_CALLBACK_PATH"
  if callbackPath ≠ "" then
    if HasPrefix callbackPath "/" then
      { config with OAuth := { config.OAuth with CallbackPath := callbackPath } }
    else config
  else config

/-- Lines 218-222 of `applyEnvironmentOverrides`: `GOOGLE_AUTH_WIZARD_PLAYGROUND_URL`. -/
def overridePlaygroundURL (env : Environ) (config : Config) : Config :=
  let playgroundURL := env.Getenv "GOOGLE_AUTH_WIZARD_PLAYGROUND_URL"
  if playgroundURL ≠ "" then
    if HasPrefix playgroundURL "http" then
      { config with OAuth := { config.OAuth with OAuthPlaygroundURL := playgroundURL } }
    else config
  else config

/-- Lines 224-226 of `applyEnvironmentOverrides`: `GOOGLE_AUTH_WIZARD_SCOPE_ENDPOINT`. -/
def overrideScopeEndpoint (env : Environ) (config : Config) : Config :=
  let scopeEndpoint := env.Getenv "GOOGLE_AUTH_WIZARD_SCOPE_ENDPOINT"
  if scopeEndpoint ≠ "" then
    { config with OAuth := { config.OAuth with ScopeEndpoint := scopeEndpoint } }
  else config

/-- Lines 228-232 of `applyEnvironmentOverrides`: `GOOGLE_AUTH_WIZARD_SCOPE_TIMEOUT`. -/
def overrideScopeTimeout (env : Environ) (config : Config) : Config :=
  let scopeTimeout := env.Getenv "GOOGLE_AUTH_WIZARD_SCOPE_TIMEOUT"
  if scopeTimeout ≠ "" then
    match env.ParseDuration scopeTimeout with
    | some t => { config with OAuth := { config.OAuth with ScopeTimeout := t } }
    | none => config
  else config

/-- Lines 234-238 of `applyEnvironmentOverrides`: `GOOGLE_AUTH_WIZARD_TERMINAL_HEIGHT`. -/
def overrideHeight (env : Environ) (config : Config) : Config :=
  let height := env.Getenv "GOOGLE_AUTH_WIZARD_TERMINAL_HEIGHT"
  if height ≠ "" then
    match Atoi height with
    | some h =>
      if h > 0 then { config with Terminal := { config.Terminal with Height := h } }
      else config
    | none => config
  else config

/-- Embedding of `config.applyEnvironmentOverrides` (src/config/config.go:193-241):
the eight overrides in source order. -/
def applyEnvironmentOverrides (env : Environ) (config : Config) : Config :=
  overrideHeight env (overrideScopeTimeout env (overrideScopeEndpoint env
    (overridePlaygroundURL env (overrideCallbackPath env (overrideServerTimeout env
      (overrideMaxPortTries env (overridePort env config)))))))

/-- A sample of `time.ParseDuration` on a few texts: the values the library
gives for them, an error for every other text. -/
def sampleParseDuration (s : String) : Option Int :=
  if s = "10m" then some 600000000000
  else if s = "2m" then some 120000000000
  else if s = "0s" then some 0
  else if s = "-5s" then some (-5000000000)
  else none

/-- A sample environment in which the given variables are set and every other
variable is unset. -/
def sampleEnviron (vars : List (String × String)) : Environ :=
  { Getenv := fun key =>
      match vars.find? (fun kv => kv.1 = key) with
      | some kv => kv.2
      | none => ""
    ParseDuration := sampleParseDuration }

/-- A sample formatting of durations: the number of nanoseconds. -/
def sampleFmtDuration (d : Int) : String := toString d ++ "ns"

end config

/-! ## The logger (package `logger`) -/

namespace logger

/-- The type `LogLevel`, an `int` (src/logger/logger.go:9). -/
abbrev LogLevel := Int

/-- The constant `LEVEL_SILENT`. -/
def LEVEL_SILENT : LogLevel := 0

/-- The constant `LEVEL_ERROR`. -/
def LEVEL_ERROR : LogLevel := 1

/-- The constant `LEVEL_INFO`. -/
def LEVEL_INFO : LogLevel := 2

/-- The constant `LEVEL_DEBUG`. -/
def LEVEL_DEBUG : LogLevel := 3

/-- The constant `LEVEL_VERBOSE`. -/
def LEVEL_VERBOSE : LogLevel := 4

/-- Embedding of `logger.Logger` (src/logger/logger.go:19-22); the package
variable `globalLogger` is passed explicitly. -/
structure Logger where
  level : LogLevel
  pfx : String
  deriving DecidableEq, Repr

/-- Embedding of `logger.SetLevel` (src/logger/logger.go:49-51). -/
def SetLevel (globalLogger : Logger) (level : LogLevel) : Logger :=
  { globalLogger with level := level }

/-- Embedding of `logger.GetLevel` (src/logger/logger.go:53-55). -/
def GetLevel (globalLogger : Logger) : LogLevel := globalLogger.level

/-- Embedding of `logger.IsDebug` (src/logger/logger.go:91-93). -/
def IsDebug (globalLogger : Logger) : Bool := decide (globalLogger.level ≥ LEVEL_DEBUG)

/-- Embedding of `logger.IsVerbose` (src/logger/logger.go:95-97). -/
def IsVerbose (globalLogger : Logger) : Bool := decide (globalLogger.level ≥ LEVEL_VERBOSE)

/-- The logger `initializeLogger` builds when none of the three environment
variables is set (src/logger/logger.go:30-35). -/
def defaultLogger : Logger := { level := LEVEL_INFO, pfx := "[Google Auth Wizard] " }

end logger

/-! ## The scope catalogue (package `googlescopes`) -/

namespace googlescopes

/-- Embedding of `googlescopes.Scope` (src/googlescopes/client.go:15-18). -/
structure Scope where
  URL : String
  Description : String
  deriving DecidableEq, Repr

/-- Embedding of `scopeResponse` (src/googlescopes/client.go:20-22). -/
structure scopeResponse where
  Description : String
  deriving DecidableEq, Repr

/-- Embedding of `apiInfoResponse` (src/googlescopes/client.go:24-27). A Go map
is the list of its entries in the order `range` yields them. -/
structure apiInfoResponse where
  IconURL : String
  Scopes : List (List (String × scopeResponse))
  deriving DecidableEq, Repr

/-- Embedding of `GoogleServices` (src/googlescopes/client.go:13): the entries
of the map. -/
abbrev GoogleServices := List (String × List Scope)

/-- The assignment `googleServices[apiName] = scopes` on the entries of a map:
the value of an existing key is replaced, a new key is added. -/
def mapSet (googleServices : GoogleServices) (apiName : String) (scopes : List Scope) :
    GoogleServices :=
  match googleServices with
  | [] => [(apiName, scopes)]
  | (k, v) :: rest =>
    if k = apiName then (k, scopes) :: rest else (k, v) :: mapSet rest apiName scopes

/-- The map lookup `googleServices[apiName]` with its `exists` flag. -/
def mapGet (googleServices : GoogleServices) (apiName : String) : Option (List Scope) :=
  match googleServices with
  | [] => none
  | (k, v) :: rest => if k = apiName then some v else mapGet rest apiName

/-- The two inner loops of `reorganizeScopes` (lines 118-128): every entry of
every scope map of the service is appended as a `Scope`. -/
def collectScopes (apiInfo : apiInfoResponse) : List Scope :=
  apiInfo.Scopes.foldl
    (fun scopes scopeMap =>
      scopeMap.foldl
        (fun scopes entry => scopes ++ [{ URL := entry.1, Description := entry.2.Description }])
        scopes)
    []

/-- The comparison given to `sort.Slice` (line 131): `scopes[i].URL < scopes[j].URL`. -/
def urlLess (a b : Scope) : Bool := decide (a.URL < b.URL)

/-- Embedding of `Client.reorganizeScopes` (src/googlescopes/client.go:114-138).
The library function `sort.Slice` is a parameter: it takes the comparison and
the slice and gives the slice after sorting. -/
def reorganizeScopes (sortSlice : (Scope → Scope → Bool) → List Scope → List Scope)
    (tempAPIs : List (String × apiInfoResponse)) : GoogleServices :=
  tempAPIs.foldl
    (fun googleServices api => mapSet googleServices api.1 (sortSlice urlLess (collectScopes api.2)))
    []

/-- A sample of `sort.Slice`: an insertion sort that puts `a` before `b` unless
`b` is less than `a`. -/
def sampleSortSlice (less : Scope → Scope → Bool) (scopes : List Scope) : List Scope :=
  scopes.insertionSort (fun a b => less b a = false)

/-- A sample answer of the scope endpoint, after the one in the tests of the
package (src/googlescopes/client_test.go:48-66), with the two scope maps of
Gmail in the other order. -/
def sampleAPIs : List (String × apiInfoResponse) :=
  [ ("Gmail API",
      { IconURL := "https://example.com/gmail.png"
        Scopes :=
          [ [("https://www.googleapis.com/auth/gmail.send", { Description := "Send email messages" })],
            [("https://www.googleapis.com/auth/gmail.readonly", { Description := "Read email messages" })] ] }),
    ("Drive API",
      { IconURL := "https://example.com/drive.png"
        Scopes :=
          [ [("https://www.googleapis.com/auth/drive", { Description := "Full access to Drive" })] ] }) ]

end googlescopes

/-! ## Further sample executions of `run` -/

namespace main

open storage auth

/-- The sample execution without force-new, with a cache file that holds a
token whose access token has three bytes. -/
def shortTokenRun : RunEnv :=
  { sampleRun false .deadline with
    json := sampleJSON
      { Token := some { AccessToken := "abc", TokenType := "Bearer", RefreshToken := "", Expiry := 0 }
        Scopes := ["https://www.googleapis.com/auth/gmail.readonly"]
        SavedAt := 63900000000000000000
        ExpiresAt := 0 } }

/-- The sample execution with force-new set, in which the handshake delivers
a token whose access token has three bytes. -/
def shortExchangeRun : RunEnv :=
  sampleRun true
    (.token { AccessToken := "abc", TokenType := "Bearer", RefreshToken := "", Expiry := 0 })

end main

/-! ## Properties of the port allocator -/

theorem wrapInt_id (x : Int) (hlo : minInt ≤ x) (hhi : x ≤ maxInt) : wrapInt x = x := by
  unfold minInt at hlo
  unfold maxInt at hhi
  unfold wrapInt
  omega

namespace utils

theorem scanPorts_probed (avail : Int → Bool) (hi : Int) (hhi : hi ≤ maxInt) :
    ∀ (n : Nat) (port : Int), minInt ≤ port →
      ∀ q ∈ (scanPorts avail hi n port).1, port ≤ q ∧ q < hi := by
  intro n
  induction n with
  | zero => intro port _ q hq; simp [scanPorts] at hq
  | succ n ih =>
    intro port hport q hq
    unfold scanPorts at hq
    by_cases hlt : port < hi
    · by_cases hav : avail port = true
      · simp [hlt, hav] at hq
        omega
      · have hw : wrapInt (port + 1) = port + 1 :=
          wrapInt_id _ (by omega) (by omega)
        simp [hlt, hav, hw] at hq
        rcases hq with hq | hq
        · omega
        · have := ih (port + 1) (by omega) q hq
          omega
    · simp [hlt] at hq

theorem scanPorts_some (avail : Int → Bool) (hi : Int) (hhi : hi ≤ maxInt) :
    ∀ (n : Nat) (port p : Int), minInt ≤ port → (scanPorts avail hi n port).2 = some p →
      port ≤ p ∧ p < hi ∧ avail p = true ∧ ∀ q, port ≤ q → q < p → avail q = false := by
  intro n
  induction n with
  | zero => intro port p _ h; simp [scanPorts] at h
  | succ n ih =>
    intro port p hport h
    unfold scanPorts at h
    by_cases hlt : port < hi
    · by_cases hav : avail port = true
      · simp [hlt, hav] at h
        subst h
        refine ⟨le_refl _, hlt, hav, ?_⟩
        intro q h1 h2
        omega
      · have hw : wrapInt (port + 1) = port + 1 :=
          wrapInt_id _ (by omega) (by omega)
        simp [hlt, hav, hw] at h
        obtain ⟨h1, h2, h3, h4⟩ := ih (port + 1) p (by omega) h
        refine ⟨by omega, h2, h3, ?_⟩
        intro q hq1 hq2
        by_cases hqe : q = port
        · subst hqe; simpa using hav
        · exact h4 q (by omega) hq2
    · simp [hlt] at h

theorem scanPorts_none (avail : Int → Bool) (hi : Int) (hhi : hi ≤ maxInt) :
    ∀ (n : Nat) (port : Int), minInt ≤ port → (hi - port).toNat ≤ n →
      (scanPorts avail hi n port).2 = none →
      ∀ q, port ≤ q → q < hi → avail q = false := by
  intro n
  induction n with
  | zero =>
    intro port _ hfuel _ q h1 h2
    omega
  | succ n ih =>
    intro port hport hfuel h q h1 h2
    unfold scanPorts at h
    by_cases hlt : port < hi
    · by_cases hav : avail port = true
      · simp [hlt, hav] at h
      · have hw : wrapInt (port + 1) = port + 1 :=
          wrapInt_id _ (by omega) (by omega)
        simp [hlt, hav, hw] at h
        by_cases hqe : q = port
        · subst hqe; simpa using hav
        · exact ih (port + 1) (by omega) (by omega) h q (by omega) h2
    · omega

theorem findAvailablePort_ok (avail : Int → Bool) (start maxTries p : Int)
    (h : (scanPorts avail (wrapInt (start + maxTries))
      (wrapInt (start + maxTries) - start).toNat start).2 = some p) :
    FindAvailablePort avail start maxTries =
      { port := p, err := none
        probed := (scanPorts avail (wrapInt (start + maxTries))
          (wrapInt (start + maxTries) - start).toNat start).1 } := by
  simp [FindAvailablePort, h]

theorem findAvailablePort_err (avail : Int → Bool) (start maxTries : Int)
    (h : (scanPorts avail (wrapInt (start + maxTries))
      (wrapInt (start + maxTries) - start).toNat start).2 = none) :
    (FindAvailablePort avail start maxTries).port = 0 ∧
    (FindAvailablePort avail start maxTries).err ≠ none ∧
    (FindAvailablePort avail start maxTries).probed =
      (scanPorts avail (wrapInt (start + maxTries))
        (wrapInt (start + maxTries) - start).toNat start).1 := by
  simp [FindAvailablePort, h]

/-- C5 (as amended): for Go ints `start` and `maxTries ≥ 1` whose sum does not
overflow `int`, if some port of the window `start .. start+maxTries-1` is
available, `FindAvailablePort` returns no error and the first available port
of the window. -/
theorem findAvailablePort_first (avail : Int → Bool) (start maxTries : Int)
    (hstart : isInt start) (hmax : 1 ≤ maxTries) (hsum : start + maxTries ≤ maxInt)
    (hex : ∃ q, start ≤ q ∧ q < start + maxTries ∧ avail q = true) :
    ∃ p, (FindAvailablePort avail start maxTries).err = none ∧
      (FindAvailablePort avail start maxTries).port = p ∧
      start ≤ p ∧ p < start + maxTries ∧ avail p = true ∧
      ∀ q, start ≤ q → q < p → avail q = false := by
  have hw : wrapInt (start + maxTries) = start + maxTries :=
    wrapInt_id _ (by have := hstart.1; omega) hsum
  cases hr : (scanPorts avail (wrapInt (start + maxTries))
      (wrapInt (start + maxTries) - start).toNat start).2 with
  | none =>
    obtain ⟨q, h1, h2, h3⟩ := hex
    have hnone := scanPorts_none avail _ (by rw [hw]; exact hsum) _ start hstart.1
      (le_refl _) hr q h1 (by rw [hw]; exact h2)
    rw [h3] at hnone
    exact absurd hnone (by decide)
  | some p =>
    have hsome := scanPorts_some avail _ (by rw [hw]; exact hsum) _ start p hstart.1 hr
    rw [hw] at hsome
    refine ⟨p, ?_, ?_, hsome.1, hsome.2.1, hsome.2.2.1, hsome.2.2.2⟩
    · rw [findAvailablePort_ok avail start maxTries p hr]
    · rw [findAvailablePort_ok avail start maxTries p hr]

/-- Witness of `findAvailablePort_first`: ports 8080 and 8081 taken, 8082 free. -/
theorem findAvailablePort_first_witness :
    ∃ p, (FindAvailablePort (fun q => decide (q = 8082)) 8080 10).err = none ∧
      (FindAvailablePort (fun q => decide (q = 8082)) 8080 10).port = p ∧
      (8080 : Int) ≤ p ∧ p < 8080 + 10 ∧ (fun q => decide (q = 8082)) p = true ∧
      ∀ q : Int, 8080 ≤ q → q < p → (fun q => decide (q = 8082)) q = false :=
  findAvailablePort_first (fun q => decide (q = 8082)) 8080 10 (by decide) (by decide)
    (by decide) ⟨8082, by decide, by decide, by decide⟩

/-- C5 (as stated) fails: with `start = 8080` and `maxTries` the largest `int`,
port 8080 is available and lies in the window, yet the loop bound
`defaultPort+maxPortTries` wraps around to a negative number, no port is probed
and an error is returned. -/
theorem findAvailablePort_first_overflow :
    isInt 8080 ∧ isInt maxInt ∧ 1 ≤ maxInt ∧
    ((8080 : Int) ≤ 8080 ∧ (8080 : Int) < 8080 + maxInt ∧
      (fun q : Int => decide (q = 8080)) 8080 = true) ∧
    (FindAvailablePort (fun q => decide (q = 8080)) 8080 maxInt).err ≠ none ∧
    (FindAvailablePort (fun q => decide (q = 8080)) 8080 maxInt).probed = [] := by
  decide

/-- C6 (as amended): for Go ints `start` and `maxTries` whose sum stays within
`int`, `FindAvailablePort` returns an error exactly when no port of the window
`start .. start+maxTries-1` is available (always when `maxTries ≤ 0`); the
returned port is then 0 and every probed port lies in the window. -/
theorem findAvailablePort_error_iff (avail : Int → Bool) (start maxTries : Int)
    (hstart : isInt start) (hsum : isInt (start + maxTries)) :
    ((FindAvailablePort avail start maxTries).err ≠ none ↔
      ∀ q, start ≤ q → q < start + maxTries → avail q = false) ∧
    (maxTries ≤ 0 → (FindAvailablePort avail start maxTries).err ≠ none) ∧
    ((FindAvailablePort avail start maxTries).err ≠ none →
      (FindAvailablePort avail start maxTries).port = 0 ∧
      ∀ q ∈ (FindAvailablePort avail start maxTries).probed,
        start ≤ q ∧ q < start + maxTries) := by
  have hw : wrapInt (start + maxTries) = start + maxTries := wrapInt_id _ hsum.1 hsum.2
  have hiff : (FindAvailablePort avail start maxTries).err ≠ none ↔
      ∀ q, start ≤ q → q < start + maxTries → avail q = false := by
    cases hr : (scanPorts avail (wrapInt (start + maxTries))
        (wrapInt (start + maxTries) - start).toNat start).2 with
    | none =>
      have hnone := scanPorts_none avail _ (by rw [hw]; exact hsum.2) _ start hstart.1
        (le_refl _) hr
      rw [hw] at hnone
      exact ⟨fun _ => hnone, fun _ => (findAvailablePort_err avail start maxTries hr).2.1⟩
    | some p =>
      have hsome := scanPorts_some avail _ (by rw [hw]; exact hsum.2) _ start p hstart.1 hr
      rw [hw] at hsome
      rw [findAvailablePort_ok avail start maxTries p hr]
      constructor
      · intro h; exact absurd rfl h
      · intro h
        have := h p hsome.1 hsome.2.1
        rw [hsome.2.2.1] at this
        exact absurd this (by decide)
  refine ⟨hiff, ?_, ?_⟩
  · intro hle
    rw [hiff]
    intro q h1 h2
    omega
  · intro herr
    cases hr : (scanPorts avail (wrapInt (start + maxTries))
        (wrapInt (start + maxTries) - start).toNat start).2 with
    | none =>
      obtain ⟨h1, _, h3⟩ := findAvailablePort_err avail start maxTries hr
      refine ⟨h1, ?_⟩
      intro q hq
      rw [h3] at hq
      have := scanPorts_probed avail _ (by rw [hw]; exact hsum.2) _ start hstart.1 q hq
      rw [hw] at this
      exact this
    | some p =>
      rw [findAvailablePort_ok avail start maxTries p hr] at herr
      exact absurd rfl herr

/-- Witness of `findAvailablePort_error_iff`: the window 9000..9002. -/
theorem findAvailablePort_error_iff_witness :
    ((FindAvailablePort (fun _ => false) 9000 3).err ≠ none ↔
      ∀ q : Int, 9000 ≤ q → q < 9000 + 3 → (fun _ : Int => false) q = false) ∧
    ((3 : Int) ≤ 0 → (FindAvailablePort (fun _ => false) 9000 3).err ≠ none) ∧
    ((FindAvailablePort (fun _ => false) 9000 3).err ≠ none →
      (FindAvailablePort (fun _ => false) 9000 3).port = 0 ∧
      ∀ q ∈ (FindAvailablePort (fun _ => false) 9000 3).probed,
        (9000 : Int) ≤ q ∧ q < 9000 + 3) :=
  findAvailablePort_error_iff (fun _ => false) 9000 3 (by decide) (by decide)

/-- C6 (as stated) fails in both directions. With `start = 1` and `maxTries` the
largest `int` every port is available, yet an error is returned (the loop bound
wraps to a negative number). With `start` the smallest `int` and
`maxTries = -1` the window is empty, yet the loop bound wraps to the largest
`int` and the call succeeds, the probed port lying outside the window. -/
theorem findAvailablePort_error_iff_overflow :
    (isInt 1 ∧ isInt maxInt ∧
      (FindAvailablePort (fun _ => true) 1 maxInt).err ≠ none ∧
      ((1 : Int) ≤ 1 ∧ (1 : Int) < 1 + maxInt ∧ (fun _ : Int => true) 1 = true)) ∧
    (isInt minInt ∧ isInt (-1) ∧ (-1 : Int) ≤ 0 ∧
      (FindAvailablePort (fun _ => true) minInt (-1)).err = none ∧
      (FindAvailablePort (fun _ => true) minInt (-1)).probed = [minInt]) := by
  refine ⟨by decide, by decide, by decide, by decide, ?_, ?_⟩
  · rw [findAvailablePort_ok (fun _ => true) minInt (-1) minInt (by decide)]
  · rw [findAvailablePort_ok (fun _ => true) minInt (-1) minInt (by decide)]
    decide

end utils

/-! ## Properties of the token cache predicates -/

namespace storage

theorem scopeMap_foldl (scopes : List String) :
    ∀ (m : ScopeMap) (k : String),
      (scopes.foldl ScopeMap.set m) k = true ↔ k ∈ scopes ∨ m k = true := by
  induction scopes with
  | nil => intro m k; simp
  | cons s rest ih =>
    intro m k
    rw [List.foldl_cons, ih (ScopeMap.set m s) k]
    unfold ScopeMap.set
    by_cases hk : k = s
    · simp [hk]
    · simp [hk]

theorem checkRequired_iff (m : ScopeMap) (required : List String) :
    checkRequired m required = true ↔ ∀ r ∈ required, m r = true := by
  induction required with
  | nil => simp [checkRequired]
  | cons r rest ih =>
    unfold checkRequired
    by_cases hr : m r = true
    · simp [hr, ih]
    · simp [hr]

/-- C2: `HasScopes` is true exactly when the requested list is empty or every
requested scope is an element of `stored.Scopes`, whatever the order of the
two lists. -/
theorem hasScopes_iff (st : StoredToken) (requiredScopes : List String) :
    st.HasScopes requiredScopes = true ↔
      requiredScopes = [] ∨ ∀ r ∈ requiredScopes, r ∈ st.Scopes := by
  unfold StoredToken.HasScopes
  by_cases hlen : requiredScopes.length = 0
  · have : requiredScopes = [] := List.length_eq_zero.mp hlen
    simp [this]
  · have hne : requiredScopes ≠ [] := fun h => hlen (by simp [h])
    simp only [hlen, if_false, checkRequired_iff, scopeMap_foldl]
    simp [hne]

/-- C3 (as amended): `IsValid` is false exactly when the token is absent or has
a non-zero expiry strictly earlier than `now + 5 minutes`; it is true
otherwise, in particular for a zero expiry and for an expiry exactly 5 minutes
from now. -/
theorem isValid_false_iff (st : StoredToken) (now : Time) :
    st.IsValid now = false ↔
      st.Token = none ∨ ∃ tok, st.Token = some tok ∧ tok.Expiry ≠ 0 ∧ tok.Expiry < now + 5 * Minute := by
  unfold StoredToken.IsValid
  cases h : st.Token with
  | none => simp
  | some tok =>
    simp [Time.IsZero, Time.After, Time.Add]

/-- C3 (as stated) fails: a token whose non-zero expiry is exactly 5 minutes
after `now` satisfies `now + 5 minutes >= expiry`, yet `IsValid` is true,
because `Time.After` is strict. -/
theorem isValid_boundary :
    ((300000001000 : Time) ≠ 0 ∧ (1000 : Time) + 5 * Minute ≥ 300000001000) ∧
    StoredToken.IsValid
      { Token := some { AccessToken := "ya29", TokenType := "Bearer", RefreshToken := "", Expiry := 300000001000 }
        Scopes := [], SavedAt := 0, ExpiresAt := 300000001000 } 1000 = true := by
  decide

end storage

/-! ## Properties of the callback coordinator -/

namespace auth

theorem chan_send_room {α : Type} (c : Chan α) (v : α) (h : c.buf.length < c.cap) :
    c.send v = some { cap := c.cap, buf := c.buf ++ [v] } := by
  simp [Chan.send, h]

/-- C1 (evaluation at the failing inputs): when the `select` statement ends with
the deadline or with an error, `GetTokenFromLocalServer` returns an error and
its effects contain no call of `srv.Shutdown`; only the token case reaches the
single call of `srv.Shutdown`. -/
theorem getToken_shutdown_only_on_token :
    ((GetTokenFromLocalServer (sampleHandshake .deadline) config.GetDefaultConfig
        sampleOAuthConfig).err ≠ none ∧
      ((GetTokenFromLocalServer (sampleHandshake .deadline) config.GetDefaultConfig
        sampleOAuthConfig).effects.filter Effect.isShutdown).length = 0) ∧
    ((GetTokenFromLocalServer (sampleHandshake (.err (.msg MISSING_AUTH_CODE_MSG)))
        config.GetDefaultConfig sampleOAuthConfig).err ≠ none ∧
      ((GetTokenFromLocalServer (sampleHandshake (.err (.msg MISSING_AUTH_CODE_MSG)))
        config.GetDefaultConfig sampleOAuthConfig).effects.filter Effect.isShutdown).length = 0) ∧
    ((GetTokenFromLocalServer (sampleHandshake (.token sampleToken)) config.GetDefaultConfig
        sampleOAuthConfig).err = none ∧
      ((GetTokenFromLocalServer (sampleHandshake (.token sampleToken)) config.GetDefaultConfig
        sampleOAuthConfig).effects.filter Effect.isShutdown).length = 1) := by
  decide

/-- C7: for a callback request without a (non-empty) `code` parameter, and an
error channel with a free buffer slot, the handler returns after exactly two
effects: it sends the error "missing authorization code" on the error channel
and calls `http.Error` with "Missing authorization code" and status 400. It
sends nothing on the token channel and never calls the token exchange. -/
theorem handler_missing_code (Exchange : String → Except GoError Token)
    (tokenChan : Chan Token) (errChan : Chan GoError) (r : Request)
    (hcode : r.Get "code" = "") (hroom : errChan.buf.length < errChan.cap) :
    (createCallbackHandler Exchange tokenChan errChan r).returned = true ∧
    (createCallbackHandler Exchange tokenChan errChan r).events =
      [.sendErr (.msg "missing authorization code"),
        .httpError "Missing authorization code" 400] ∧
    responseStatus (createCallbackHandler Exchange tokenChan errChan r).events = some 400 ∧
    (createCallbackHandler Exchange tokenChan errChan r).errChan.buf =
      errChan.buf ++ [.msg "missing authorization code"] ∧
    (GoError.msg "missing authorization code").Error = "missing authorization code" ∧
    (createCallbackHandler Exchange tokenChan errChan r).tokenChan = tokenChan ∧
    (createCallbackHandler Exchange tokenChan errChan r).events.any HandlerEvent.isSendToken = false ∧
    (createCallbackHandler Exchange tokenChan errChan r).events.any HandlerEvent.isExchange = false := by
  have hsend := chan_send_room errChan (GoError.msg MISSING_AUTH_CODE_MSG) hroom
  simp only [createCallbackHandler, hcode, if_true, hsend]
  simp [MISSING_AUTH_CODE_MSG, StatusBadRequest, responseStatus, GoError.Error,
    HandlerEvent.isSendToken, HandlerEvent.isExchange]

/-- Witness of `handler_missing_code`: the request `GET /callback` on the fresh
channels of capacity 1 that `GetTokenFromLocalServer` creates. -/
theorem handler_missing_code_witness :
    (createCallbackHandler (fun _ => .ok sampleToken) (Chan.make 1) (Chan.make 1)
      { query := [] }).events =
      [.sendErr (.msg "missing authorization code"),
        .httpError "Missing authorization code" 400] :=
  (handler_missing_code (fun _ => .ok sampleToken) (Chan.make 1) (Chan.make 1)
    { query := [] } (by decide) (by decide)).2.1

/-- C8: for a callback request with a non-empty code whose exchange fails with
`cause`, and an error channel with a free buffer slot, the handler returns
after calling the exchange, sending the error
"code exchange failed: " followed by the cause on the error channel, and calling
`http.Error` with "Code exchange failed" and status 500. It sends nothing on
the token channel. -/
theorem handler_exchange_failed (Exchange : String → Except GoError Token)
    (tokenChan : Chan Token) (errChan : Chan GoError) (r : Request) (cause : GoError)
    (hcode : r.Get "code" ≠ "") (hex : Exchange (r.Get "code") = .error cause)
    (hroom : errChan.buf.length < errChan.cap) :
    (createCallbackHandler Exchange tokenChan errChan r).returned = true ∧
    (createCallbackHandler Exchange tokenChan errChan r).events =
      [.exchange (r.Get "code"),
        .sendErr (.msg ("code exchange failed" ++ ": " ++ cause.Error)),
        .httpError "Code exchange failed" 500] ∧
    responseStatus (createCallbackHandler Exchange tokenChan errChan r).events = some 500 ∧
    (createCallbackHandler Exchange tokenChan errChan r).errChan.buf =
      errChan.buf ++ [.msg ("code exchange failed" ++ ": " ++ cause.Error)] ∧
    (GoError.msg ("code exchange failed" ++ ": " ++ cause.Error)).Error =
      "code exchange failed: " ++ cause.Error ∧
    (createCallbackHandler Exchange tokenChan errChan r).tokenChan = tokenChan ∧
    (createCallbackHandler Exchange tokenChan errChan r).events.any HandlerEvent.isSendToken = false := by
  have hsend := chan_send_room errChan
    (GoError.msg (CODE_EXCHANGE_FAILED_MSG ++ ": " ++ cause.Error)) hroom
  simp only [createCallbackHandler, hcode, if_false, hex, hsend]
  simp [CODE_EXCHANGE_FAILED_MSG, StatusInternalServerError, responseStatus, GoError.Error,
    HandlerEvent.isSendToken]

/-- Witness of `handler_exchange_failed`: the request `GET /callback?code=test-code`
with a token endpoint that rejects every code. -/
theorem handler_exchange_failed_witness :
    (createCallbackHandler (fun _ => .error (.msg "oauth2: cannot fetch token"))
      (Chan.make 1) (Chan.make 1) { query := [("code", "test-code")] }).events =
      [.exchange (Request.Get { query := [("code", "test-code")] } "code"),
        .sendErr (.msg ("code exchange failed" ++ ": "
          ++ (GoError.msg "oauth2: cannot fetch token").Error)),
        .httpError "Code exchange failed" 500] :=
  (handler_exchange_failed (fun _ => .error (.msg "oauth2: cannot fetch token"))
    (Chan.make 1) (Chan.make 1) { query := [("code", "test-code")] }
    (.msg "oauth2: cannot fetch token") (by decide) rfl (by decide)).2.1

/-- C9: on channels that each have a free buffer slot, one run of the handler
returns after writing exactly one response and sending exactly one value, on
exactly one of the two channels. The value is the exchanged token on the token
channel exactly when the code is non-empty and the exchange succeeds, and then
the response is the success page written with `Content-Type` set to
`text/html; charset=utf-8` and the implicit status 200; in every other case
the value is an error on the error channel. -/
theorem handler_one_response_one_signal (Exchange : String → Except GoError Token)
    (tokenChan : Chan Token) (errChan : Chan GoError) (r : Request)
    (htok : tokenChan.buf.length < tokenChan.cap) (herr : errChan.buf.length < errChan.cap) :
    (createCallbackHandler Exchange tokenChan errChan r).returned = true ∧
    ((createCallbackHandler Exchange tokenChan errChan r).events.filter
      HandlerEvent.isResponse).length = 1 ∧
    ((createCallbackHandler Exchange tokenChan errChan r).events.filter
      HandlerEvent.isSendToken).length +
      ((createCallbackHandler Exchange tokenChan errChan r).events.filter
        HandlerEvent.isSendErr).length = 1 ∧
    ((createCallbackHandler Exchange tokenChan errChan r).tokenChan.buf.length +
      (createCallbackHandler Exchange tokenChan errChan r).errChan.buf.length =
      tokenChan.buf.length + errChan.buf.length + 1) ∧
    (((createCallbackHandler Exchange tokenChan errChan r).events.filter
      HandlerEvent.isSendToken).length = 1 ↔
      (r.Get "code" ≠ "" ∧ ∃ token, Exchange (r.Get "code") = .ok token)) ∧
    (∀ token, r.Get "code" ≠ "" → Exchange (r.Get "code") = .ok token →
      (createCallbackHandler Exchange tokenChan errChan r).events =
        [.exchange (r.Get "code"), .headerSet "Content-Type" "text/html; charset=utf-8",
          .fprint SUCCESS_HTML_TEMPLATE, .sendToken token] ∧
      responseStatus (createCallbackHandler Exchange tokenChan errChan r).events = some 200 ∧
      (createCallbackHandler Exchange tokenChan errChan r).tokenChan.buf =
        tokenChan.buf ++ [token] ∧
      (createCallbackHandler Exchange tokenChan errChan r).errChan = errChan) ∧
    (¬ (r.Get "code" ≠ "" ∧ ∃ token, Exchange (r.Get "code") = .ok token) →
      ((createCallbackHandler Exchange tokenChan errChan r).events.filter
        HandlerEvent.isSendErr).length = 1 ∧
      (createCallbackHandler Exchange tokenChan errChan r).tokenChan = tokenChan ∧
      ∃ err, (createCallbackHandler Exchange tokenChan errChan r).errChan.buf =
        errChan.buf ++ [err]) := by
  by_cases hcode : r.Get "code" = ""
  · have hsend := chan_send_room errChan (GoError.msg MISSING_AUTH_CODE_MSG) herr
    simp only [createCallbackHandler, hcode, if_true, hsend]
    simp [HandlerEvent.isResponse, HandlerEvent.isSendToken, HandlerEvent.isSendErr]
    omega
  · cases hex : Exchange (r.Get "code") with
    | error cause =>
      have hsend := chan_send_room errChan
        (GoError.msg (CODE_EXCHANGE_FAILED_MSG ++ ": " ++ cause.Error)) herr
      simp only [createCallbackHandler, hcode, if_false, hex, hsend]
      simp [HandlerEvent.isResponse, HandlerEvent.isSendToken, HandlerEvent.isSendErr]
      omega
    | ok token =>
      have hsend := chan_send_room tokenChan token htok
      simp only [createCallbackHandler, hcode, if_false, hex, hsend]
      simp [HandlerEvent.isResponse, HandlerEvent.isSendToken, HandlerEvent.isSendErr,
        responseStatus, StatusOK]
      exact ⟨by omega, hcode⟩

/-- Witness of `handler_one_response_one_signal`: the request
`GET /callback?code=4/0Adeu5B` with a token endpoint that accepts the code. -/
theorem handler_one_response_one_signal_witness :
    (createCallbackHandler (fun _ => .ok sampleToken) (Chan.make 1) (Chan.make 1)
      { query := [("code", "4/0Adeu5B")] }).returned = true :=
  (handler_one_response_one_signal (fun _ => .ok sampleToken) (Chan.make 1) (Chan.make 1)
    { query := [("code", "4/0Adeu5B")] } (by decide) (by decide)).1

end auth

/-! ## Properties of the session orchestrator -/

namespace main

open storage auth

theorem showToken_facts (env : RunEnv) (token : Token) (effects : List RunEffect)
    (fs : CacheFile) :
    (showToken env token effects fs).err = none ∧
    (showToken env token effects fs).token = some token ∧
    (showToken env token effects fs).fs = fs ∧
    (showToken env token effects fs).effects.any RunEffect.isGetToken =
      effects.any RunEffect.isGetToken ∧
    (showToken env token effects fs).effects.any RunEffect.isCacheWrite =
      effects.any RunEffect.isCacheWrite := by
  unfold showToken
  split
  · simp [RunEffect.isGetToken, RunEffect.isCacheWrite]
  · split
    · simp
    · simp [RunEffect.isGetToken, RunEffect.isCacheWrite]

theorem cachedToken_effects (env : RunEnv) :
    (cachedToken env).2.any RunEffect.isGetToken = false ∧
    (cachedToken env).2.any RunEffect.isCacheWrite = false := by
  unfold cachedToken
  split
  · simp
  · split
    · simp [RunEffect.isGetToken, RunEffect.isCacheWrite]
    · split
      · simp [RunEffect.isGetToken, RunEffect.isCacheWrite]
      · split <;> simp [RunEffect.isGetToken, RunEffect.isCacheWrite]

theorem cachedToken_some_iff (env : RunEnv) (token : Token) :
    (cachedToken env).1 = some token ↔
      env.forceNew = false ∧ storage.Exists env.fs = true ∧
      ∃ st, Load env.json env.fs = .ok st ∧ st.IsValid env.nowCheck = true ∧
        st.HasScopes env.selectedScopes = true ∧ st.Token = some token := by
  unfold cachedToken
  by_cases hf : env.forceNew = true
  · simp [hf]
  · by_cases hex : storage.Exists env.fs = true
    · cases hl : Load env.json env.fs with
      | error e => simp [hf, hex]
      | ok st =>
        by_cases hv : (st.IsValid env.nowCheck && st.HasScopes env.selectedScopes) = true
        · simp only [hf, hex, hv]
          simp at hv
          simp [hv]
        · simp only [hf, hex, hv]
          simp at hv
          simp
          intro h1 h2
          exact absurd h2 (by simpa using hv h1)
    · simp [hf, hex]

theorem isValid_token (st : StoredToken) (now : Time) (h : st.IsValid now = true) :
    ∃ token, st.Token = some token := by
  unfold StoredToken.IsValid at h
  cases ht : st.Token with
  | none => simp [ht] at h
  | some tok => exact ⟨tok, rfl⟩

theorem run_cached (env : RunEnv) (cfg : config.Config) (conf : OAuthConfig) (token : Token)
    (hfetch : env.fetchErr = none) (hterm : env.terminalErr = none)
    (hval : env.hasBeenValidated = true) (hsel : env.selectedScopes ≠ [])
    (hconf : env.ConfigFromJSON env.selectedScopes = .ok conf)
    (hc : (cachedToken env).1 = some token) :
    run env cfg = showToken env token
      ([.fetchScopes, .terminalRun, .printScopes env.selectedScopes] ++ (cachedToken env).2)
      env.fs := by
  have hlen : ¬ env.selectedScopes.length = 0 := fun h => hsel (List.length_eq_zero.mp h)
  simp [run, hfetch, hterm, hval, hlen, CreateOAuthConfig, hconf, hc]

theorem run_handshake (env : RunEnv) (cfg : config.Config) (conf : OAuthConfig)
    (hfetch : env.fetchErr = none) (hterm : env.terminalErr = none)
    (hval : env.hasBeenValidated = true) (hsel : env.selectedScopes ≠ [])
    (hconf : env.ConfigFromJSON env.selectedScopes = .ok conf)
    (hc : (cachedToken env).1 = none) :
    RunEffect.getToken (GetTokenFromLocalServer env.handshake cfg conf).effects ∈
      (run env cfg).effects := by
  have hlen : ¬ env.selectedScopes.length = 0 := fun h => hsel (List.length_eq_zero.mp h)
  simp only [run, hfetch, hterm, hval, hlen, CreateOAuthConfig, hconf, hc]
  cases he : (GetTokenFromLocalServer env.handshake cfg conf).err with
  | some err => simp
  | none =>
    cases ht : (GetTokenFromLocalServer env.handshake cfg conf).token with
    | none => simp
    | some token =>
      simp only [Bool.not_true, Bool.false_eq_true, if_false]
      unfold showToken
      split
      · simp
      · split <;> simp

/-- C4: once the selection is validated and non-empty (and the client
configuration is built), `run` skips `GetTokenFromLocalServer` exactly when
force-new is not set, the cache file exists, `Load` succeeds and the stored
token both `IsValid` and `HasScopes` the selection; it then ends with the
stored token, untouched cache. In every other case, in particular whenever
force-new is set, `GetTokenFromLocalServer` is called. -/
theorem run_reuse_iff (env : RunEnv) (cfg : config.Config) (conf : OAuthConfig)
    (hfetch : env.fetchErr = none) (hterm : env.terminalErr = none)
    (hval : env.hasBeenValidated = true) (hsel : env.selectedScopes ≠ [])
    (hconf : env.ConfigFromJSON env.selectedScopes = .ok conf) :
    ((run env cfg).effects.any RunEffect.isGetToken = false ↔
      (env.forceNew = false ∧ storage.Exists env.fs = true ∧
        ∃ st, Load env.json env.fs = .ok st ∧ st.IsValid env.nowCheck = true ∧
          st.HasScopes env.selectedScopes = true)) ∧
    (∀ st, env.forceNew = false → storage.Exists env.fs = true →
      Load env.json env.fs = .ok st → st.IsValid env.nowCheck = true →
      st.HasScopes env.selectedScopes = true →
        (run env cfg).token = st.Token ∧ (run env cfg).err = none ∧
        (run env cfg).fs = env.fs ∧
        (run env cfg).effects.any RunEffect.isCacheWrite = false) ∧
    ((run env cfg).effects.any RunEffect.isGetToken = true →
      RunEffect.getToken (GetTokenFromLocalServer env.handshake cfg conf).effects ∈
        (run env cfg).effects) ∧
    (env.forceNew = true → (run env cfg).effects.any RunEffect.isGetToken = true) := by
  have hreuse : ∀ st, env.forceNew = false → storage.Exists env.fs = true →
      Load env.json env.fs = .ok st → st.IsValid env.nowCheck = true →
      st.HasScopes env.selectedScopes = true →
      ∃ token, st.Token = some token ∧
        run env cfg = showToken env token
          ([.fetchScopes, .terminalRun, .printScopes env.selectedScopes] ++ (cachedToken env).2)
          env.fs := by
    intro st h1 h2 h3 h4 h5
    obtain ⟨token, htok⟩ := isValid_token st env.nowCheck h4
    have hc : (cachedToken env).1 = some token :=
      (cachedToken_some_iff env token).mpr ⟨h1, h2, st, h3, h4, h5, htok⟩
    exact ⟨token, htok, run_cached env cfg conf token hfetch hterm hval hsel hconf hc⟩
  have hnoget : ∀ token,
      (showToken env token
        ([.fetchScopes, .terminalRun, .printScopes env.selectedScopes] ++ (cachedToken env).2)
        env.fs).effects.any RunEffect.isGetToken = false := by
    intro token
    rw [(showToken_facts env token _ env.fs).2.2.2.1, List.any_append,
      (cachedToken_effects env).1]
    simp [RunEffect.isGetToken]
  have hnowrite : ∀ token,
      (showToken env token
        ([.fetchScopes, .terminalRun, .printScopes env.selectedScopes] ++ (cachedToken env).2)
        env.fs).effects.any RunEffect.isCacheWrite = false := by
    intro token
    rw [(showToken_facts env token _ env.fs).2.2.2.2, List.any_append,
      (cachedToken_effects env).2]
    simp [RunEffect.isCacheWrite]
  have hmem : ∀ l : List RunEffect, ∀ e ∈ l, e.isGetToken = true →
      l.any RunEffect.isGetToken = true := by
    intro l e he hg
    exact List.any_eq_true.mpr ⟨e, he, hg⟩
  refine ⟨?_, ?_, ?_, ?_⟩
  · constructor
    · intro hno
      cases hc : (cachedToken env).1 with
      | none =>
        have := hmem _ _ (run_handshake env cfg conf hfetch hterm hval hsel hconf hc) rfl
        rw [hno] at this
        exact absurd this (by decide)
      | some token =>
        obtain ⟨h1, h2, st, h3, h4, h5, _⟩ := (cachedToken_some_iff env token).mp hc
        exact ⟨h1, h2, st, h3, h4, h5⟩
    · rintro ⟨h1, h2, st, h3, h4, h5⟩
      obtain ⟨token, _, hrun⟩ := hreuse st h1 h2 h3 h4 h5
      rw [hrun]
      exact hnoget token
  · intro st h1 h2 h3 h4 h5
    obtain ⟨token, htok, hrun⟩ := hreuse st h1 h2 h3 h4 h5
    rw [hrun, htok]
    have hf := showToken_facts env token
      ([.fetchScopes, .terminalRun, .printScopes env.selectedScopes] ++ (cachedToken env).2)
      env.fs
    exact ⟨hf.2.1, hf.1, hf.2.2.1, hnowrite token⟩
  · intro hget
    cases hc : (cachedToken env).1 with
    | none => exact run_handshake env cfg conf hfetch hterm hval hsel hconf hc
    | some token =>
      rw [run_cached env cfg conf token hfetch hterm hval hsel hconf hc, hnoget token] at hget
      exact absurd hget (by decide)
  · intro hforce
    have hc : (cachedToken env).1 = none := by simp [cachedToken, hforce]
    exact hmem _ _ (run_handshake env cfg conf hfetch hterm hval hsel hconf hc) rfl

theorem getToken_failure (henv : HandshakeEnv) (cfg : config.Config) (conf : OAuthConfig)
    (hev : ∀ t, henv.event ≠ .token t) :
    (GetTokenFromLocalServer henv cfg conf).token = none ∧
    ∃ err, (GetTokenFromLocalServer henv cfg conf).err = some err := by
  unfold GetTokenFromLocalServer
  cases hp : (utils.FindAvailablePort henv.isPortAvailable cfg.Server.DefaultPort
      cfg.Server.MaxPortTries).err with
  | some err => simp [hp]
  | none =>
    cases he : henv.event with
    | token t => exact absurd he (hev t)
    | err e => simp [hp]
    | deadline => simp [hp]

theorem run_failure_no_cache_write (env : RunEnv) (cfg : config.Config)
    (hev : ∀ t, env.handshake.event ≠ .token t) :
    (run env cfg).effects.any RunEffect.isCacheWrite = false ∧
    (run env cfg).fs = env.fs := by
  cases hfetch : env.fetchErr with
  | some e => simp [run, hfetch, RunEffect.isCacheWrite]
  | none =>
    cases hterm : env.terminalErr with
    | some e => simp [run, hfetch, hterm, RunEffect.isCacheWrite]
    | none =>
      by_cases hval : env.hasBeenValidated = true
      · by_cases hlen : env.selectedScopes.length = 0
        · simp [run, hfetch, hterm, hval, hlen, RunEffect.isCacheWrite]
        · cases hconf : env.ConfigFromJSON env.selectedScopes with
          | error e =>
            simp [run, hfetch, hterm, hval, hlen, CreateOAuthConfig, hconf,
              RunEffect.isCacheWrite]
          | ok conf =>
            have hsel : env.selectedScopes ≠ [] := fun h => hlen (by simp [h])
            cases hc : (cachedToken env).1 with
            | some token =>
              rw [run_cached env cfg conf token hfetch hterm hval hsel hconf hc]
              have hf := showToken_facts env token
                ([.fetchScopes, .terminalRun, .printScopes env.selectedScopes] ++
                  (cachedToken env).2) env.fs
              rw [hf.2.2.2.2, hf.2.2.1, List.any_append, (cachedToken_effects env).2]
              simp [RunEffect.isCacheWrite]
            | none =>
              obtain ⟨h1, err, h2⟩ := getToken_failure env.handshake cfg conf hev
              have hrun : run env cfg =
                  { err := some (.wrap "failed to get OAuth token: " err), panicked := false
                    token := none
                    effects := [.fetchScopes, .terminalRun, .printScopes env.selectedScopes]
                      ++ (cachedToken env).2
                      ++ [.getToken (GetTokenFromLocalServer env.handshake cfg conf).effects]
                    fs := env.fs } := by
                simp [run, hfetch, hterm, hval, hlen, CreateOAuthConfig, hconf, hc, h2]
              rw [hrun]
              refine ⟨?_, rfl⟩
              simp only [List.any_append, (cachedToken_effects env).2]
              simp [RunEffect.isCacheWrite]
      · simp [run, hfetch, hterm, hval, RunEffect.isCacheWrite]

/-- C10: take an execution of `run` that reaches the handshake (scopes fetched,
selection validated and non-empty, client configuration built, and no stored
token to reuse: force-new set, or no cache file, or `Load` failing, or a stored
token that is not valid for the selection). When the `select` statement of the
handshake ends with an error or with the deadline, `GetTokenFromLocalServer` is
called, returns no token and a non-nil error; `run` returns that error, wrapped
as "failed to get OAuth token: ...", with no token in hand and without a panic;
the call of `GetTokenFromLocalServer` is the last effect of `run`, which calls
neither `Save` nor `Delete`, so the token cache file is left as it was. -/
theorem run_handshake_failure_keeps_cache (env : RunEnv) (cfg : config.Config)
    (conf : OAuthConfig)
    (hfetch : env.fetchErr = none) (hterm : env.terminalErr = none)
    (hval : env.hasBeenValidated = true) (hsel : env.selectedScopes ≠ [])
    (hconf : env.ConfigFromJSON env.selectedScopes = .ok conf)
    (hnoreuse : ¬ (env.forceNew = false ∧ storage.Exists env.fs = true ∧
      ∃ st, Load env.json env.fs = .ok st ∧ st.IsValid env.nowCheck = true ∧
        st.HasScopes env.selectedScopes = true))
    (hev : ∀ t, env.handshake.event ≠ .token t) :
    (GetTokenFromLocalServer env.handshake cfg conf).token = none ∧
    (∃ err, (GetTokenFromLocalServer env.handshake cfg conf).err = some err ∧
      (run env cfg).err = some (.wrap "failed to get OAuth token: " err) ∧
      (run env cfg).err.bind GoError.Unwrap = some err) ∧
    (run env cfg).token = none ∧
    (run env cfg).panicked = false ∧
    (run env cfg).effects =
      [.fetchScopes, .terminalRun, .printScopes env.selectedScopes] ++ (cachedToken env).2 ++
        [.getToken (GetTokenFromLocalServer env.handshake cfg conf).effects] ∧
    (run env cfg).effects.any RunEffect.isCacheWrite = false ∧
    (run env cfg).fs = env.fs := by
  have hc : (cachedToken env).1 = none := by
    cases hct : (cachedToken env).1 with
    | none => rfl
    | some token =>
      obtain ⟨h1, h2, st, h3, h4, h5, _⟩ := (cachedToken_some_iff env token).mp hct
      exact absurd ⟨h1, h2, st, h3, h4, h5⟩ hnoreuse
  have hlen : ¬ env.selectedScopes.length = 0 := fun h => hsel (List.length_eq_zero.mp h)
  obtain ⟨h1, err, h2⟩ := getToken_failure env.handshake cfg conf hev
  have hrun : run env cfg =
      { err := some (.wrap "failed to get OAuth token: " err), panicked := false
        token := none
        effects := [.fetchScopes, .terminalRun, .printScopes env.selectedScopes]
          ++ (cachedToken env).2
          ++ [.getToken (GetTokenFromLocalServer env.handshake cfg conf).effects]
        fs := env.fs } := by
    simp [run, hfetch, hterm, hval, hlen, CreateOAuthConfig, hconf, hc, h2]
  have hkeep := run_failure_no_cache_write env cfg hev
  rw [hrun] at hkeep ⊢
  exact ⟨h1, ⟨err, h2, rfl, rfl⟩, rfl, rfl, rfl, hkeep.1, rfl⟩

/-- Witness of `run_reuse_iff`: the sample execution without force-new. -/
theorem run_reuse_iff_witness :
    (run (sampleRun false .deadline) config.GetDefaultConfig).effects.any
      RunEffect.isGetToken = false ↔
      ((sampleRun false .deadline).forceNew = false ∧
        storage.Exists (sampleRun false .deadline).fs = true ∧
        ∃ st, Load (sampleRun false .deadline).json (sampleRun false .deadline).fs = .ok st ∧
          st.IsValid (sampleRun false .deadline).nowCheck = true ∧
          st.HasScopes (sampleRun false .deadline).selectedScopes = true) :=
  (run_reuse_iff (sampleRun false .deadline) config.GetDefaultConfig
    { ClientID := "test-client-id"
      Scopes := ["https://www.googleapis.com/auth/gmail.readonly"], RedirectURL := "" }
    rfl rfl rfl (by decide) rfl).1

/-- Witness of `run_handshake_failure_keeps_cache`: the sample execution with
force-new set, a token in the cache file and a handshake that times out. `run`
returns the timeout error of the handshake, wrapped, and the cache file still
holds what it held. -/
theorem run_handshake_failure_keeps_cache_witness :
    (GetTokenFromLocalServer (sampleRun true .deadline).handshake config.GetDefaultConfig
      sampleOAuthConfig).token = none ∧
    (∃ err, (GetTokenFromLocalServer (sampleRun true .deadline).handshake
        config.GetDefaultConfig sampleOAuthConfig).err = some err ∧
      (run (sampleRun true .deadline) config.GetDefaultConfig).err =
        some (.wrap "failed to get OAuth token: " err) ∧
      (run (sampleRun true .deadline) config.GetDefaultConfig).err.bind GoError.Unwrap =
        some err) ∧
    (run (sampleRun true .deadline) config.GetDefaultConfig).token = none ∧
    (run (sampleRun true .deadline) config.GetDefaultConfig).panicked = false ∧
    (run (sampleRun true .deadline) config.GetDefaultConfig).effects =
      [.fetchScopes, .terminalRun, .printScopes (sampleRun true .deadline).selectedScopes] ++
        (cachedToken (sampleRun true .deadline)).2 ++
        [.getToken (GetTokenFromLocalServer (sampleRun true .deadline).handshake
          config.GetDefaultConfig sampleOAuthConfig).effects] ∧
    (run (sampleRun true .deadline) config.GetDefaultConfig).effects.any
      RunEffect.isCacheWrite = false ∧
    (run (sampleRun true .deadline) config.GetDefaultConfig).fs =
      (sampleRun true .deadline).fs :=
  run_handshake_failure_keeps_cache (sampleRun true .deadline) config.GetDefaultConfig
    sampleOAuthConfig rfl rfl rfl (by decide) rfl (fun h => absurd h.1 (by decide))
    (fun _ h => SelectEvent.noConfusion h)

end main

/-! ## Properties of the scope selector -/

namespace terminal

theorem update_space (lu : ListUpdate) (m : model) :
    Update lu m (.KeyMsg " ") = updateSpace m := by
  simp [Update]

theorem update_tab (lu : ListUpdate) (m : model) :
    Update lu m (.KeyMsg "tab") = updateTab m := by
  simp [Update]

theorem update_enter (lu : ListUpdate) (m : model) :
    Update lu m (.KeyMsg "enter") = updateEnter m := by
  simp [Update]

theorem update_esc (lu : ListUpdate) (m : model) :
    Update lu m (.KeyMsg "esc") = updateEsc m := by
  simp [Update]

theorem update_quit (lu : ListUpdate) (m : model) (k : String) (hk : k = "q" ∨ k = "ctrl+c") :
    Update lu m (.KeyMsg k) = ({ m with quitting := true }, .Quit) := by
  rcases hk with h | h <;> simp [Update, h]

theorem isSelected_iff (value : String) (choice : List String) :
    isSelected value choice = true ↔ value ∈ choice := by
  induction choice with
  | nil => simp [isSelected]
  | cons c rest ih =>
    unfold isSelected
    by_cases h : c = value
    · simp [h]
    · have h2 : ¬ value = c := fun e => h e.symm
      simp [h, h2, ih]

theorem removeChoice_eq_erase (value : String) (choice : List String) :
    removeChoice value choice = choice.erase value := by
  induction choice with
  | nil => simp [removeChoice]
  | cons c rest ih =>
    unfold removeChoice
    by_cases h : c = value
    · simp [h]
    · simp [h, ih, List.erase_cons]

/-- C12: in the Scopes view, with a leaf of non-empty value `v` under the
highlight, the key space takes the first entry `v` out of `chosen` when `v` is
in it (the other entries keep their order, and `v` is gone when `chosen` had no
duplicate), and otherwise appends `v` at the end; view state and breadcrumb stay
as they are. In the Services and Confirm views space leaves `chosen` as it is. -/
theorem space_toggles (lu : ListUpdate) (m : model) :
    (∀ i : Item, m.viewState = .ViewScopes → m.list.SelectedItem = some i →
      i.IsHeader = false → i.Value ≠ "" →
      ((i.Value ∈ m.choice →
          (Update lu m (.KeyMsg " ")).1.choice = m.choice.erase i.Value ∧
          (m.choice.erase i.Value).Sublist m.choice ∧
          (m.choice.Nodup → i.Value ∉ (Update lu m (.KeyMsg " ")).1.choice ∧
            (Update lu m (.KeyMsg " ")).1.choice = m.choice.filter (fun c => c ≠ i.Value))) ∧
        (i.Value ∉ m.choice →
          (Update lu m (.KeyMsg " ")).1.choice = m.choice ++ [i.Value]) ∧
        (Update lu m (.KeyMsg " ")).1.viewState = m.viewState ∧
        (Update lu m (.KeyMsg " ")).1.breadcrumb = m.breadcrumb ∧
        (Update lu m (.KeyMsg " ")).2 = .nil)) ∧
    (m.viewState ≠ .ViewScopes → Update lu m (.KeyMsg " ") = (m, .nil)) := by
  rw [update_space]
  constructor
  · intro i hview hsel hleaf hval
    have hcond : (!i.IsHeader && decide (i.Value ≠ "")) = true := by simp [hleaf, hval]
    by_cases hin : i.Value ∈ m.choice
    · have hs : isSelected i.Value m.choice = true := (isSelected_iff _ _).mpr hin
      have hupd : updateSpace m = ({ m with choice := m.choice.erase i.Value }, .nil) := by
        simp only [updateSpace, hview, hsel, hs, removeChoice_eq_erase, if_true, hcond]
      rw [hupd]
      refine ⟨fun _ => ⟨rfl, List.erase_sublist _ _, fun hnd => ⟨?_, ?_⟩⟩,
        fun h => absurd hin h, rfl, rfl, rfl⟩
      · exact fun h => ((List.Nodup.mem_erase_iff hnd).mp h).1 rfl
      · show m.choice.erase i.Value = _
        rw [List.Nodup.erase_eq_filter hnd]
        congr 1
        funext c
        by_cases hc : c = i.Value <;> simp [bne, hc]
    · have hs : isSelected i.Value m.choice = false := by
        cases h : isSelected i.Value m.choice with
        | false => rfl
        | true => exact absurd ((isSelected_iff _ _).mp h) hin
      have hupd : updateSpace m = ({ m with choice := m.choice ++ [i.Value] }, .nil) := by
        simp only [updateSpace, hview, hsel, hs, if_true, hcond]
        simp
      rw [hupd]
      exact ⟨fun h => absurd h hin, fun _ => rfl, rfl, rfl, rfl⟩
  · intro hview
    simp [updateSpace, hview]

theorem updateEsc_choice (m : model) : (updateEsc m).1.choice = m.choice := by
  unfold updateEsc
  cases h : m.viewState <;> simp [h]

theorem updateTab_choice (m : model) : (updateTab m).1.choice = m.choice := by
  unfold updateTab
  split
  · split
    · split <;> rfl
    · rfl
  · rfl

theorem enterConfirm_choice (m : model) : (enterConfirm m).1.choice = m.choice := by
  unfold enterConfirm
  split <;> rfl

theorem updateEnter_choice (m : model) : (updateEnter m).1.choice = m.choice := by
  unfold updateEnter
  split
  · exact enterConfirm_choice m
  · exact enterConfirm_choice m
  · split
    · split <;> rfl
    · rfl

theorem updateSpace_choice (m : model) :
    (updateSpace m).1.choice = m.choice ∨
    (∃ v, v ∉ m.choice ∧ (updateSpace m).1.choice = m.choice ++ [v]) ∨
    (∃ v, (updateSpace m).1.choice = m.choice.erase v) := by
  unfold updateSpace
  split
  · split
    · rename_i i _
      split
      · by_cases hs : isSelected i.Value m.choice = true
        · right; right
          exact ⟨i.Value, by simp [hs, removeChoice_eq_erase]⟩
        · right; left
          refine ⟨i.Value, fun hin => hs ((isSelected_iff _ _).mpr hin), by simp [hs]⟩
      · left; rfl
    · left; rfl
  · left; rfl

theorem update_choice (lu : ListUpdate) (m : model) (msg : Msg) :
    (Update lu m msg).1.choice = m.choice ∨
    (∃ v, v ∉ m.choice ∧ (Update lu m msg).1.choice = m.choice ++ [v]) ∨
    (∃ v, (Update lu m msg).1.choice = m.choice.erase v) := by
  cases msg with
  | WindowSizeMsg w h => left; rfl
  | other tag => left; rfl
  | KeyMsg k =>
    unfold Update
    simp only
    split
    · left; rfl
    · split
      · left; exact updateEsc_choice m
      · split
        · left; exact updateTab_choice m
        · split
          · left; exact updateEnter_choice m
          · split
            · exact updateSpace_choice m
            · split <;> (left; rfl)

theorem update_nodup (lu : ListUpdate) (m : model) (msg : Msg) (h : m.choice.Nodup) :
    (Update lu m msg).1.choice.Nodup := by
  rcases update_choice lu m msg with h1 | ⟨v, hv, h2⟩ | ⟨v, h3⟩
  · rw [h1]; exact h
  · rw [h2]
    exact List.Nodup.append h (List.nodup_singleton v) (by simpa using hv)
  · rw [h3]; exact h.erase v

/-- C13: in every state of the selector that some sequence of messages reaches
from the initial model, whatever the list component does with the highlight
and the filter, the list `choice` holds no scope twice. -/
theorem reachable_choice_nodup (lu : ListUpdate) (pg : Paginate) (title : String)
    (items : List Item)
    (m : model) (h : Reachable lu pg title items m) : m.choice.Nodup := by
  induction h with
  | init => simp [initialModel]
  | step m msg _ ih => exact update_nodup lu m msg ih

/-- Witness of `space_toggles`: space on the Gmail scope, just after entering
the Gmail service of the sample catalogue. -/
theorem space_toggles_witness :
    (Update sampleListUpdate (afterKeys sampleItems ["tab"]) (.KeyMsg " ")).1.choice =
      (afterKeys sampleItems ["tab"]).choice ++ ["https://www.googleapis.com/auth/gmail.readonly"] :=
  ((space_toggles sampleListUpdate (afterKeys sampleItems ["tab"])).1
    (Item.mk "https://www.googleapis.com/auth/gmail.readonly" "Read"
      "https://www.googleapis.com/auth/gmail.readonly" false [])
    rfl rfl rfl (by decide)).2.1 (by decide)

/-- Witness of `reachable_choice_nodup`: the state after tab and space on the
sample catalogue. -/
theorem reachable_choice_nodup_witness : (afterKeys sampleItems ["tab", " "]).choice.Nodup :=
  reachable_choice_nodup sampleListUpdate samplePaginate "Root" sampleItems (afterKeys sampleItems ["tab", " "])
    (.step _ _ (.step _ _ .init))

/-- C14 (evaluation at the failing input): on the sample catalogue the keys tab,
space, esc, enter, esc reach a state whose view is Scopes while the breadcrumb
holds the title alone, so its length is 1 and not 2. -/
theorem breadcrumb_short_in_scopes :
    Reachable sampleListUpdate samplePaginate "Root" sampleItems
      (afterKeys sampleItems ["tab", " ", "esc", "enter", "esc"]) ∧
    (afterKeys sampleItems ["tab", " ", "esc", "enter", "esc"]).viewState = .ViewScopes ∧
    (afterKeys sampleItems ["tab", " ", "esc", "enter", "esc"]).breadcrumb = ["Root"] ∧
    (afterKeys sampleItems ["tab", " ", "esc", "enter", "esc"]).breadcrumb.length = 1 :=
  ⟨.step _ _ (.step _ _ (.step _ _ (.step _ _ (.step _ _ .init)))), by decide, by decide,
    by decide⟩

/-- C15: in the Services view, tab on a highlighted header with at least one
child leads to the Scopes view, appends the header's title to the breadcrumb
and makes the header's children, in order, the items of the list (all of them
visible, the filter being reset) and the remembered scope items. Tab on an
item without children, or in another view, leaves the model as it is. -/
theorem tab_enters_service (lu : ListUpdate) (m : model) :
    (∀ i : Item, m.viewState = .ViewServices → m.list.SelectedItem = some i →
      i.IsHeader = true → 0 < i.Children.length →
      (Update lu m (.KeyMsg "tab")).1.viewState = .ViewScopes ∧
      (Update lu m (.KeyMsg "tab")).1.breadcrumb = m.breadcrumb ++ [i.Title] ∧
      (Update lu m (.KeyMsg "tab")).1.list.items = i.Children ∧
      (Update lu m (.KeyMsg "tab")).1.list.VisibleItems = i.Children ∧
      (Update lu m (.KeyMsg "tab")).1.scopeItems = i.Children ∧
      (Update lu m (.KeyMsg "tab")).1.choice = m.choice ∧
      (Update lu m (.KeyMsg "tab")).2 = .nil) ∧
    (∀ i : Item, m.list.SelectedItem = some i → i.Children = [] →
      Update lu m (.KeyMsg "tab") = (m, .nil)) ∧
    (m.viewState ≠ .ViewServices → Update lu m (.KeyMsg "tab") = (m, .nil)) := by
  rw [update_tab]
  refine ⟨?_, ?_, ?_⟩
  · intro i hview hsel hhead hchildren
    have hcond : (i.IsHeader && decide (i.Children.length > 0)) = true := by
      simp [hhead, hchildren]
    simp only [updateTab, hview, hsel, hcond, if_true]
    refine ⟨by trivial, by trivial, ?_, ?_, by trivial, by trivial, by trivial⟩
    · simp only [ListModel.ResetSelected, ListModel.SetItems, ListModel.ResetFilter]
      split <;> simp
    · simp only [ListModel.ResetSelected, ListModel.SetItems, ListModel.ResetFilter,
        ListModel.VisibleItems]
      split <;> simp
  · intro i hsel hchildren
    simp [updateTab, hsel, hchildren]
  · intro hview
    simp [updateTab, hview]

/-- Witness of `tab_enters_service`: tab on the Gmail header of the sample
catalogue. -/
theorem tab_enters_service_witness :
    (Update sampleListUpdate (afterKeys sampleItems []) (.KeyMsg "tab")).1.viewState = .ViewScopes ∧
    (Update sampleListUpdate (afterKeys sampleItems []) (.KeyMsg "tab")).1.breadcrumb =
      (afterKeys sampleItems []).breadcrumb ++ ["Gmail"] :=
  have h := (tab_enters_service sampleListUpdate (afterKeys sampleItems [])).1
    (Item.mk "Gmail" "1 scopes available" "Gmail" true
      [Item.mk "https://www.googleapis.com/auth/gmail.readonly" "Read"
        "https://www.googleapis.com/auth/gmail.readonly" false []])
    rfl rfl rfl (by decide)
  ⟨h.1, h.2.1⟩

/-- C16: in the Services or the Scopes view, enter with a non-empty `choice` leads
to the Confirm view, appends "Confirm Selection" to the breadcrumb and sets the
items of the list (all visible) to one leaf row per chosen scope, in the order
of `choice` and with the scope as value, followed by the single row of value
"confirm"; with an empty `choice`, enter leaves the model as it is. -/
theorem enter_builds_confirm (lu : ListUpdate) (m : model) :
    ((m.viewState = .ViewServices ∨ m.viewState = .ViewScopes) → m.choice ≠ [] →
      (Update lu m (.KeyMsg "enter")).1.viewState = .ViewConfirm ∧
      (Update lu m (.KeyMsg "enter")).1.breadcrumb = m.breadcrumb ++ ["Confirm Selection"] ∧
      (Update lu m (.KeyMsg "enter")).1.list.items =
        m.choice.map (fun c => Item.mk c "Selected scope" c false []) ++
          [Item.mk "✓ Confirm Selection" "Press Enter to confirm" "confirm" false []] ∧
      (Update lu m (.KeyMsg "enter")).1.list.VisibleItems =
        (Update lu m (.KeyMsg "enter")).1.list.items ∧
      (Update lu m (.KeyMsg "enter")).1.list.items.length = m.choice.length + 1 ∧
      (Update lu m (.KeyMsg "enter")).1.list.items.map Item.Value = m.choice ++ ["confirm"] ∧
      (∀ r ∈ (Update lu m (.KeyMsg "enter")).1.list.items, r.IsHeader = false) ∧
      (Update lu m (.KeyMsg "enter")).1.choice = m.choice ∧
      (Update lu m (.KeyMsg "enter")).2 = .nil) ∧
    ((m.viewState = .ViewServices ∨ m.viewState = .ViewScopes) → m.choice = [] →
      Update lu m (.KeyMsg "enter") = (m, .nil)) := by
  rw [update_enter]
  have henter : (m.viewState = .ViewServices ∨ m.viewState = .ViewScopes) →
      updateEnter m = enterConfirm m := by
    intro hview
    rcases hview with h | h <;> simp [updateEnter, h]
  constructor
  · intro hview hne
    have hlen : m.choice.length > 0 := List.length_pos.mpr hne
    have hitems : ((m.list.ResetFilter.SetItems (confirmItems m.choice))).items =
        confirmItems m.choice := by
      simp only [ListModel.SetItems, ListModel.ResetFilter]
      split <;> simp
    have hstate : ((m.list.ResetFilter.SetItems (confirmItems m.choice))).filterState =
        .Unfiltered := by
      simp only [ListModel.SetItems, ListModel.ResetFilter]
      split <;> simp [*]
    rw [henter hview]
    simp only [enterConfirm, hlen, if_true, ListModel.ResetSelected]
    refine ⟨by trivial, by trivial, hitems, ?_, ?_, ?_, ?_, by trivial, by trivial⟩
    · simp [ListModel.VisibleItems, hstate]
    · rw [hitems]; simp [confirmItems]
    · rw [hitems]; simp [confirmItems, Item.Value, Function.comp_def]
    · rw [hitems]
      intro r hr
      simp only [confirmItems, List.mem_append, List.mem_map, List.mem_singleton] at hr
      rcases hr with ⟨c, _, rfl⟩ | rfl <;> rfl
  · intro hview hnil
    rw [henter hview]
    simp [enterConfirm, hnil]

/-- Witness of `enter_builds_confirm`: enter in the Scopes view of the sample
catalogue with the Gmail scope chosen. -/
theorem enter_builds_confirm_witness :
    (Update sampleListUpdate (afterKeys sampleItems ["tab", " "]) (.KeyMsg "enter")).1.viewState
      = .ViewConfirm :=
  ((enter_builds_confirm sampleListUpdate (afterKeys sampleItems ["tab", " "])).1
    (Or.inr rfl) (by decide)).1

/-- C17 (evaluation at the failing input): on the sample catalogue, after tab,
space and esc the view is Services and the list shows the two service headers;
enter then opens the Confirm view; esc from there does not come back to that
state: the view is Scopes, the list shows the scope of Gmail and the breadcrumb
holds the title alone. -/
theorem back_from_confirm_after_services :
    ((afterKeys sampleItems ["tab", " ", "esc"]).viewState = .ViewServices ∧
      (afterKeys sampleItems ["tab", " ", "esc"]).list.items.map Item.Value =
        ["Gmail", "Drive"] ∧
      (afterKeys sampleItems ["tab", " ", "esc"]).breadcrumb = ["Root"]) ∧
    ((afterKeys sampleItems ["tab", " ", "esc", "enter"]).viewState = .ViewConfirm ∧
      (afterKeys sampleItems ["tab", " ", "esc", "enter"]).breadcrumb =
        ["Root", "Confirm Selection"]) ∧
    ((afterKeys sampleItems ["tab", " ", "esc", "enter", "esc"]).viewState = .ViewScopes ∧
      (afterKeys sampleItems ["tab", " ", "esc", "enter", "esc"]).list.items.map Item.Value =
        ["https://www.googleapis.com/auth/gmail.readonly"] ∧
      (afterKeys sampleItems ["tab", " ", "esc", "enter", "esc"]).breadcrumb = ["Root"]) := by
  decide

theorem program_quit (lu : ListUpdate) (m : model) (msg : Msg) (rest : List Msg)
    (h : (Update lu m msg).2 = .Quit) :
    program lu m (msg :: rest) = some (Update lu m msg).1 := by
  unfold program
  cases hupd : Update lu m msg with
  | mk m1 cmd =>
    rw [hupd] at h
    simp only at h
    subst h
    rfl

theorem updateEsc_validated (m : model) :
    (updateEsc m).1.hasBeenValidated = m.hasBeenValidated := by
  unfold updateEsc
  cases h : m.viewState <;> simp [h]

theorem updateTab_validated (m : model) :
    (updateTab m).1.hasBeenValidated = m.hasBeenValidated := by
  unfold updateTab
  split
  · split
    · split <;> rfl
    · rfl
  · rfl

theorem updateSpace_validated (m : model) :
    (updateSpace m).1.hasBeenValidated = m.hasBeenValidated := by
  unfold updateSpace
  split
  · split
    · split
      · split <;> rfl
      · rfl
    · rfl
  · rfl

theorem update_validated_other (lu : ListUpdate) (m : model) (msg : Msg)
    (hmsg : msg ≠ .KeyMsg "enter") :
    (Update lu m msg).1.hasBeenValidated = m.hasBeenValidated := by
  cases msg with
  | WindowSizeMsg w h => rfl
  | other tag => rfl
  | KeyMsg k =>
    have hk : k ≠ "enter" := fun e => hmsg (by rw [e])
    unfold Update
    simp only [hk, if_false]
    split
    · rfl
    · split
      · exact updateEsc_validated m
      · split
        · exact updateTab_validated m
        · split
          · exact updateSpace_validated m
          · split <;> rfl

theorem updateEnter_cases (m : model) :
    ((m.viewState = .ViewConfirm ∧ ∃ i, m.list.SelectedItem = some i ∧ i.Value = "confirm") ∧
      updateEnter m = ({ m with quitting := true, hasBeenValidated := true }, .Quit)) ∨
    (¬ (m.viewState = .ViewConfirm ∧ ∃ i, m.list.SelectedItem = some i ∧ i.Value = "confirm") ∧
      (updateEnter m).1.hasBeenValidated = m.hasBeenValidated ∧ (updateEnter m).2 = .nil) := by
  unfold updateEnter
  cases hview : m.viewState with
  | ViewServices =>
    right
    refine ⟨by simp, ?_⟩
    simp only [enterConfirm]
    split <;> exact ⟨rfl, rfl⟩
  | ViewScopes =>
    right
    refine ⟨by simp, ?_⟩
    simp only [enterConfirm]
    split <;> exact ⟨rfl, rfl⟩
  | ViewConfirm =>
    cases hsel : m.list.SelectedItem with
    | none => right; simp
    | some i =>
      by_cases hv : i.Value = "confirm"
      · left; simp [hv]
      · right; simp [hv]

/-- The test that `Update` makes before it validates: from a state with
`hasBeenValidated = false`, a message makes `hasBeenValidated` true exactly when
the view is Confirm, the message is the key enter and the highlighted row has
the value "confirm", whichever row that is (the confirm action has this value,
and so has the row of a chosen scope whose url is "confirm"); then
`Update` answers `tea.Quit`, the program ends on that message and `choice` is the
list it had. The keys q and ctrl+c end the program from any state with
`hasBeenValidated` still false. -/
theorem validated_iff_confirm (lu : ListUpdate) (m : model) (msg : Msg)
    (h : m.hasBeenValidated = false) :
    ((Update lu m msg).1.hasBeenValidated = true ↔
      (m.viewState = .ViewConfirm ∧ msg = .KeyMsg "enter" ∧
        ∃ i, m.list.SelectedItem = some i ∧ i.Value = "confirm")) ∧
    ((Update lu m msg).1.hasBeenValidated = true →
      (Update lu m msg).2 = .Quit ∧ (Update lu m msg).1.choice = m.choice ∧
      ∀ rest, program lu m (msg :: rest) = some (Update lu m msg).1) ∧
    (∀ k, k = "q" ∨ k = "ctrl+c" →
      (Update lu m (.KeyMsg k)).2 = .Quit ∧
      (Update lu m (.KeyMsg k)).1.hasBeenValidated = false ∧
      (Update lu m (.KeyMsg k)).1.choice = m.choice ∧
      ∀ rest, program lu m (.KeyMsg k :: rest) = some (Update lu m (.KeyMsg k)).1) := by
  have hmain : ((Update lu m msg).1.hasBeenValidated = true ↔
      (m.viewState = .ViewConfirm ∧ msg = .KeyMsg "enter" ∧
        ∃ i, m.list.SelectedItem = some i ∧ i.Value = "confirm")) ∧
      ((Update lu m msg).1.hasBeenValidated = true →
        (Update lu m msg).2 = .Quit ∧ (Update lu m msg).1.choice = m.choice) := by
    by_cases hmsg : msg = .KeyMsg "enter"
    · subst hmsg
      rw [update_enter]
      rcases updateEnter_cases m with ⟨⟨hv, hi⟩, hupd⟩ | ⟨hno, hsame, _⟩
      · rw [hupd]
        exact ⟨⟨fun _ => ⟨hv, rfl, hi⟩, fun _ => rfl⟩, fun _ => ⟨rfl, rfl⟩⟩
      · rw [hsame, h]
        refine ⟨⟨fun hf => absurd hf (by decide), fun hc => absurd ⟨hc.1, hc.2.2⟩ hno⟩, ?_⟩
        exact fun hf => absurd hf (by decide)
    · rw [update_validated_other lu m msg hmsg, h]
      refine ⟨⟨fun hf => absurd hf (by decide), fun hc => absurd hc.2.1 hmsg⟩, ?_⟩
      exact fun hf => absurd hf (by decide)
  refine ⟨hmain.1, ?_, ?_⟩
  · intro hv
    obtain ⟨hq, hc⟩ := hmain.2 hv
    exact ⟨hq, hc, fun rest => program_quit lu m msg rest hq⟩
  · intro k hk
    have hupd := update_quit lu m k hk
    refine ⟨by rw [hupd], by rw [hupd]; exact h, by rw [hupd], ?_⟩
    intro rest
    exact program_quit lu m (.KeyMsg k) rest (by rw [hupd])

/-- Witness of `validated_iff_confirm`: enter on the confirm row of the sample
catalogue ends the program with the chosen scope. -/
theorem validated_iff_confirm_witness :
    program sampleListUpdate (afterKeys sampleItems ["tab", " ", "enter", "down"])
      [.KeyMsg "enter"] =
      some (Update sampleListUpdate (afterKeys sampleItems ["tab", " ", "enter", "down"])
        (.KeyMsg "enter")).1 :=
  ((validated_iff_confirm sampleListUpdate (afterKeys sampleItems ["tab", " ", "enter", "down"])
    (.KeyMsg "enter") rfl).2.1 (by decide)).2.2 []

/-- C18 (evaluation at the failing input): with a catalogue whose only scope has
the url "confirm", the keys tab, space, enter lead to a state with
`hasBeenValidated = false` in the Confirm view, whose rows are the chosen scope
and then the confirm item, with the highlight on the first of the two, which is
not the confirm item. The key enter then sets `hasBeenValidated` and ends the
program, although the highlighted row is not the confirm item. -/
theorem validated_on_chosen_scope_row :
    (afterKeys collidingItems ["tab", " ", "enter"]).hasBeenValidated = false ∧
    (afterKeys collidingItems ["tab", " ", "enter"]).viewState = .ViewConfirm ∧
    (afterKeys collidingItems ["tab", " ", "enter"]).list.VisibleItems.map Item.Title =
      ["confirm", "✓ Confirm Selection"] ∧
    (afterKeys collidingItems ["tab", " ", "enter"]).list.VisibleItems.map Item.Description =
      ["Selected scope", "Press Enter to confirm"] ∧
    (afterKeys collidingItems ["tab", " ", "enter"]).list.SelectedItem.map Item.Title =
      some "confirm" ∧
    (afterKeys collidingItems ["tab", " ", "enter"]).list.SelectedItem.map Item.Description =
      some "Selected scope" ∧
    (program sampleListUpdate (afterKeys collidingItems ["tab", " ", "enter"])
      [.KeyMsg "enter"]).map model.hasBeenValidated = some true ∧
    (program sampleListUpdate (afterKeys collidingItems ["tab", " ", "enter"])
      [.KeyMsg "enter"]).map model.choice = some ["confirm"] := by
  decide

/-- C19 (evaluation at the failing input): with a catalogue whose only scope has
the url "confirm", the keys tab, space, enter lead to the Confirm view with that
scope chosen and the highlight on row 0, the row showing the chosen scope;
enter on that row is not a no-op: `Update` answers `tea.Quit` and sets
`hasBeenValidated`. -/
theorem enter_on_scope_named_confirm :
    (afterKeys collidingItems ["tab", " ", "enter"]).viewState = .ViewConfirm ∧
    (afterKeys collidingItems ["tab", " ", "enter"]).choice = ["confirm"] ∧
    (afterKeys collidingItems ["tab", " ", "enter"]).list.index = 0 ∧
    (afterKeys collidingItems ["tab", " ", "enter"]).list.index <
      (afterKeys collidingItems ["tab", " ", "enter"]).choice.length ∧
    (afterKeys collidingItems ["tab", " ", "enter"]).hasBeenValidated = false ∧
    (Update sampleListUpdate (afterKeys collidingItems ["tab", " ", "enter"])
      (.KeyMsg "enter")).2 = .Quit ∧
    (Update sampleListUpdate (afterKeys collidingItems ["tab", " ", "enter"])
      (.KeyMsg "enter")).1.hasBeenValidated = true := by
  decide

/-- C20: the selector scenario on the sample catalogue with title "Root". Tab on
Gmail gives the Scopes view with breadcrumb Root, Gmail; space on the readonly
leaf gives `choice` with that scope alone; enter gives the Confirm view with
exactly two rows, the scope and then the confirm action; with the highlight
moved down to the confirm row, enter ends the program, and `Run` yields that
`choice` with `hasBeenValidated` set. -/
theorem selector_scenario :
    ((afterKeys sampleItems []).viewState = .ViewServices ∧
      (afterKeys sampleItems []).choice = [] ∧
      (afterKeys sampleItems []).list.SelectedItem.map Item.Title = some "Gmail") ∧
    ((afterKeys sampleItems ["tab"]).viewState = .ViewScopes ∧
      (afterKeys sampleItems ["tab"]).breadcrumb = ["Root", "Gmail"] ∧
      (afterKeys sampleItems ["tab"]).list.SelectedItem.map Item.Value =
        some "https://www.googleapis.com/auth/gmail.readonly") ∧
    ((afterKeys sampleItems ["tab", " "]).choice =
        ["https://www.googleapis.com/auth/gmail.readonly"]) ∧
    ((afterKeys sampleItems ["tab", " ", "enter"]).viewState = .ViewConfirm ∧
      (afterKeys sampleItems ["tab", " ", "enter"]).list.VisibleItems.length = 2 ∧
      (afterKeys sampleItems ["tab", " ", "enter"]).list.VisibleItems.map Item.Value =
        ["https://www.googleapis.com/auth/gmail.readonly", "confirm"]) ∧
    ((afterKeys sampleItems ["tab", " ", "enter", "down"]).list.SelectedItem.map Item.Value =
        some "confirm") ∧
    ((Run sampleListUpdate samplePaginate "Root" sampleItems
        [.KeyMsg "tab", .KeyMsg " ", .KeyMsg "enter", .KeyMsg "down", .KeyMsg "enter"]).map
        (fun m => (m.choice, m.hasBeenValidated)) =
      some (["https://www.googleapis.com/auth/gmail.readonly"], true)) := by
  decide

theorem popBreadcrumb_length (b : List String) :
    (popBreadcrumb b).length = if b.length > 1 then b.length - 1 else b.length := by
  unfold popBreadcrumb
  split <;> simp

theorem updateEsc_depth (m : model) (h : depthOk m) : depthOk (updateEsc m).1 := by
  unfold depthOk at h ⊢
  unfold updateEsc
  cases hv : m.viewState with
  | ViewServices => simp [hv] at h ⊢; exact h
  | ViewScopes =>
    simp [hv] at h ⊢
    rw [popBreadcrumb_length]
    rcases h with h | h <;> simp [h]
  | ViewConfirm =>
    simp [hv] at h ⊢
    rw [popBreadcrumb_length]
    rcases h with h | h <;> simp [h]

theorem updateTab_depth (m : model) (h : depthOk m) : depthOk (updateTab m).1 := by
  unfold updateTab
  split
  · rename_i hv
    split
    · split
      · unfold depthOk at h ⊢
        simp [hv] at h ⊢
        simp [h]
      · exact h
    · exact h
  · exact h

theorem enterConfirm_depth (m : model) (h : depthOk m)
    (hv : m.viewState = .ViewServices ∨ m.viewState = .ViewScopes) :
    depthOk (enterConfirm m).1 := by
  unfold enterConfirm
  split
  · unfold depthOk at h ⊢
    rcases hv with hv | hv
    · simp [hv] at h ⊢
      simp [h]
    · simp [hv] at h ⊢
      rcases h with h | h <;> simp [h]
  · exact h

theorem updateEnter_depth (m : model) (h : depthOk m) : depthOk (updateEnter m).1 := by
  unfold updateEnter
  split
  · rename_i hv; exact enterConfirm_depth m h (Or.inl hv)
  · rename_i hv; exact enterConfirm_depth m h (Or.inr hv)
  · split
    · split
      · exact h
      · exact h
    · exact h

theorem updateSpace_depth (m : model) (h : depthOk m) : depthOk (updateSpace m).1 := by
  unfold updateSpace
  split
  · split
    · split
      · split <;> exact h
      · exact h
    · exact h
  · exact h

theorem update_depth (lu : ListUpdate) (m : model) (msg : Msg) (h : depthOk m) :
    depthOk (Update lu m msg).1 := by
  cases msg with
  | WindowSizeMsg w hgt => exact h
  | other tag => exact h
  | KeyMsg k =>
    unfold Update
    simp only
    split
    · exact h
    · split
      · exact updateEsc_depth m h
      · split
        · exact updateTab_depth m h
        · split
          · exact updateEnter_depth m h
          · split
            · exact updateSpace_depth m h
            · split <;> exact h

theorem reachable_depth (lu : ListUpdate) (pg : Paginate) (title : String)
    (items : List Item)
    (m : model) (h : Reachable lu pg title items m) : depthOk m := by
  induction h with
  | init => simp [depthOk, initialModel]
  | step m msg _ ih => exact update_depth lu m msg ih

theorem reachable_breadcrumb_bounds (lu : ListUpdate) (pg : Paginate) (title : String)
    (items : List Item)
    (m : model) (h : Reachable lu pg title items m) :
    (m.viewState = .ViewServices → m.breadcrumb.length = 1) ∧
    (m.viewState = .ViewScopes → m.breadcrumb.length = 1 ∨ m.breadcrumb.length = 2) ∧
    (m.viewState = .ViewConfirm → m.breadcrumb.length = 2 ∨ m.breadcrumb.length = 3) := by
  have hd := reachable_depth lu pg title items m h
  unfold depthOk at hd
  refine ⟨fun hv => ?_, fun hv => ?_, fun hv => ?_⟩ <;> simpa [hv] using hd

end terminal

/-! ## Properties of the token cache file -/

namespace storage

theorem sampleCodec_roundtrip (st0 : StoredToken) :
    ∀ st data, (sampleCodec st0).Marshal st = .ok data →
      ∃ st1, (sampleCodec st0).Unmarshal data = .ok st1 ∧ st1.ExpiresAt = st.ExpiresAt ∧
        ∀ s, s ∈ st1.Scopes ↔ s ∈ st.Scopes := by
  intro st data h
  by_cases hst : st = st0
  · subst hst
    exact ⟨st, rfl, rfl, fun _ => Iff.rfl⟩
  · simp [sampleCodec, hst] at h

/-- C11: after a `Save(token, scopes)` that returned no error, and provided the
file can be read and `encoding/json` decodes what it encoded with the same
scopes (as a set) and the same `expires_at` instant, `Load` on the same path
succeeds and yields a stored token whose scopes are the saved scopes as a set
and whose `ExpiresAt` is the expiry of the token. -/
theorem save_then_load (json : JSONCodec) (fs : CacheFile) (now : Time) (token : Token)
    (scopes : List String)
    (hsave : (Save json fs now token scopes).1 = none)
    (hread : fs.readErr = none)
    (hjson : ∀ st data, json.Marshal st = .ok data →
      ∃ st1, json.Unmarshal data = .ok st1 ∧ st1.ExpiresAt = st.ExpiresAt ∧
        ∀ s, s ∈ st1.Scopes ↔ s ∈ st.Scopes) :
    ∃ st1, Load json (Save json fs now token scopes).2 = .ok st1 ∧
      (∀ s, s ∈ st1.Scopes ↔ s ∈ scopes) ∧ st1.ExpiresAt = token.Expiry ∧
      (Save json fs now token scopes).2.filepath = fs.filepath := by
  unfold Save at hsave ⊢
  cases hmk : fs.mkdirErr with
  | some e => simp [hmk] at hsave
  | none =>
    cases hm : json.Marshal
        { Token := some token, Scopes := scopes, SavedAt := now, ExpiresAt := token.Expiry } with
    | error e => simp [hmk, hm] at hsave
    | ok data =>
      cases hw : fs.writeErr with
      | some e => simp [hmk, hm, hw] at hsave
      | none =>
        obtain ⟨st1, hun, hexp, hsc⟩ := hjson _ data hm
        refine ⟨st1, ?_, hsc, hexp, ?_⟩
        · simp [hmk, hm, hw, Load, hread, hun]
        · simp [hmk, hm, hw]

/-- Witness of `save_then_load`: the sample token saved for one scope into an
empty cache directory. -/
theorem save_then_load_witness :
    ∃ st1, Load
        (sampleCodec
          { Token := some auth.sampleToken
            Scopes := ["https://www.googleapis.com/auth/gmail.readonly"]
            SavedAt := 63900000200000000000, ExpiresAt := auth.sampleToken.Expiry })
        (Save
          (sampleCodec
            { Token := some auth.sampleToken
              Scopes := ["https://www.googleapis.com/auth/gmail.readonly"]
              SavedAt := 63900000200000000000, ExpiresAt := auth.sampleToken.Expiry })
          { filepath := "/home/user/.google-auth-wizard/token.json"
            dir := "/home/user/.google-auth-wizard", data := none
            statErr := none, readErr := none, mkdirErr := none, writeErr := none
            removeErr := none }
          63900000200000000000 auth.sampleToken
          ["https://www.googleapis.com/auth/gmail.readonly"]).2 = .ok st1 ∧
      (∀ s, s ∈ st1.Scopes ↔ s ∈ ["https://www.googleapis.com/auth/gmail.readonly"]) ∧
      st1.ExpiresAt = auth.sampleToken.Expiry ∧
      (Save
          (sampleCodec
            { Token := some auth.sampleToken
              Scopes := ["https://www.googleapis.com/auth/gmail.readonly"]
              SavedAt := 63900000200000000000, ExpiresAt := auth.sampleToken.Expiry })
          { filepath := "/home/user/.google-auth-wizard/token.json"
            dir := "/home/user/.google-auth-wizard", data := none
            statErr := none, readErr := none, mkdirErr := none, writeErr := none
            removeErr := none }
          63900000200000000000 auth.sampleToken
          ["https://www.googleapis.com/auth/gmail.readonly"]).2.filepath =
        "/home/user/.google-auth-wizard/token.json" :=
  save_then_load _ _ _ _ _ (by decide) rfl (sampleCodec_roundtrip _)

end storage

/-! ## Properties of the configuration checks -/

namespace config

/-- C25: `ValidateConfig` returns an error exactly when the default port is
outside 1..65535, or the number of port tries, the server timeout or the scope
timeout is not positive, or the callback path, the playground URL or the scope
endpoint is empty. The default configuration is accepted, and a port outside
1..65535 gives the error "invalid default port: " followed by the port and
" (must be between 1 and 65535)". -/
theorem validateConfig_iff (fmtDuration : Int → String) (config : Config) :
    (ValidateConfig fmtDuration config ≠ none ↔
      (config.Server.DefaultPort < 1 ∨ config.Server.DefaultPort > 65535 ∨
        config.Server.MaxPortTries ≤ 0 ∨ config.Server.ServerTimeout ≤ 0 ∨
        config.OAuth.ScopeTimeout ≤ 0 ∨ config.OAuth.CallbackPath = "" ∨
        config.OAuth.OAuthPlaygroundURL = "" ∨ config.OAuth.ScopeEndpoint = "")) ∧
    ValidateConfig fmtDuration GetDefaultConfig = none ∧
    ((config.Server.DefaultPort < 1 ∨ config.Server.DefaultPort > 65535) →
      ValidateConfig fmtDuration config =
        some (.msg ("invalid default port: " ++ toString config.Server.DefaultPort
          ++ " (must be between 1 and 65535)"))) := by
  refine ⟨?_, rfl, ?_⟩
  · unfold ValidateConfig
    split_ifs with h1 h2 h3 h4 h5 h6 h7
    · refine ⟨fun _ => ?_, fun _ => by simp⟩
      rcases h1 with h | h
      · exact Or.inl (by omega)
      · exact Or.inr (Or.inl h)
    · exact ⟨fun _ => by tauto, fun _ => by simp⟩
    · exact ⟨fun _ => by tauto, fun _ => by simp⟩
    · exact ⟨fun _ => by tauto, fun _ => by simp⟩
    · exact ⟨fun _ => by tauto, fun _ => by simp⟩
    · exact ⟨fun _ => by tauto, fun _ => by simp⟩
    · exact ⟨fun _ => by tauto, fun _ => by simp⟩
    · refine ⟨fun h => absurd rfl h, fun h => ?_⟩
      have h1a : ¬ config.Server.DefaultPort < 1 := by omega
      have h1b : ¬ config.Server.DefaultPort > 65535 := by omega
      tauto
  · intro h
    have h1 : config.Server.DefaultPort ≤ 0 ∨ config.Server.DefaultPort > 65535 := by omega
    unfold ValidateConfig
    rw [if_pos h1]

/-- Witness of `validateConfig_iff`: the default configuration with the port
set to -1, as in the test of the package. -/
theorem validateConfig_iff_witness :
    ValidateConfig sampleFmtDuration
        { GetDefaultConfig with Server := { GetDefaultConfig.Server with DefaultPort := -1 } } =
      some (.msg ("invalid default port: " ++ toString (-1 : Int)
        ++ " (must be between 1 and 65535)")) :=
  (validateConfig_iff sampleFmtDuration
    { GetDefaultConfig with Server := { GetDefaultConfig.Server with DefaultPort := -1 } }).2.2
    (Or.inl (by decide))

theorem overridePort_frame (env : Environ) (config : Config) :
    (overridePort env config).Server.MaxPortTries = config.Server.MaxPortTries ∧
    (overridePort env config).Server.ServerTimeout = config.Server.ServerTimeout ∧
    (overridePort env config).OAuth = config.OAuth ∧
    (overridePort env config).Terminal = config.Terminal := by
  unfold overridePort
  simp only
  split
  · split
    · split <;> simp
    · simp
  · simp

theorem later_overrides_keep_port (env : Environ) (config : Config) :
    (overrideHeight env (overrideScopeTimeout env (overrideScopeEndpoint env
      (overridePlaygroundURL env (overrideCallbackPath env (overrideServerTimeout env
        (overrideMaxPortTries env config))))))).Server.DefaultPort =
      config.Server.DefaultPort := by
  have h1 : ∀ c, (overrideHeight env c).Server = c.Server := by
    intro c; unfold overrideHeight; simp only; split
    · split
      · split <;> rfl
      · rfl
    · rfl
  have h2 : ∀ c, (overrideScopeTimeout env c).Server = c.Server := by
    intro c; unfold overrideScopeTimeout; simp only; split
    · split <;> rfl
    · rfl
  have h3 : ∀ c, (overrideScopeEndpoint env c).Server = c.Server := by
    intro c; unfold overrideScopeEndpoint; simp only; split <;> rfl
  have h4 : ∀ c, (overridePlaygroundURL env c).Server = c.Server := by
    intro c; unfold overridePlaygroundURL; simp only; split
    · split <;> rfl
    · rfl
  have h5 : ∀ c, (overrideCallbackPath env c).Server = c.Server := by
    intro c; unfold overrideCallbackPath; simp only; split
    · split <;> rfl
    · rfl
  have h6 : ∀ c, (overrideServerTimeout env c).Server.DefaultPort = c.Server.DefaultPort := by
    intro c; unfold overrideServerTimeout; simp only; split
    · split <;> rfl
    · rfl
  have h7 : ∀ c, (overrideMaxPortTries env c).Server.DefaultPort = c.Server.DefaultPort := by
    intro c; unfold overrideMaxPortTries; simp only; split
    · split
      · split <;> rfl
      · rfl
    · rfl
  rw [h1, h2, h3, h4, h5, h6, h7]

/-- C26: `applyEnvironmentOverrides` sets `Server.DefaultPort` to the value of
`GOOGLE_AUTH_WIZARD_PORT` when `strconv.Atoi` reads it as an integer in
1..65535, and leaves `DefaultPort` as it is in every other case: the variable
unset or empty, not a number (such as "invalid"), or a number out of range. -/
theorem overrides_defaultPort (env : Environ) (config : Config) :
    (∀ p, Atoi (env.Getenv "GOOGLE_AUTH_WIZARD_PORT") = some p → 1 ≤ p → p ≤ 65535 →
      (applyEnvironmentOverrides env config).Server.DefaultPort = p) ∧
    ((env.Getenv "GOOGLE_AUTH_WIZARD_PORT" = "" ∨
        Atoi (env.Getenv "GOOGLE_AUTH_WIZARD_PORT") = none ∨
        ∃ p, Atoi (env.Getenv "GOOGLE_AUTH_WIZARD_PORT") = some p ∧ (p < 1 ∨ 65535 < p)) →
      (applyEnvironmentOverrides env config).Server.DefaultPort =
        config.Server.DefaultPort) ∧
    Atoi "" = none ∧ Atoi "invalid" = none ∧ Atoi "0" = some 0 ∧ Atoi "65536" = some 65536 ∧
    Atoi "9090" = some 9090 := by
  refine ⟨?_, ?_, by decide, by decide, by decide, by decide, by decide⟩
  · intro p hp h1 h2
    unfold applyEnvironmentOverrides
    rw [later_overrides_keep_port]
    have hne : env.Getenv "GOOGLE_AUTH_WIZARD_PORT" ≠ "" := by
      intro h
      have h0 : Atoi "" = none := by decide
      rw [h, h0] at hp
      cases hp
    have hr : p > 0 ∧ p ≤ 65535 := ⟨by omega, h2⟩
    simp [overridePort, hne, hp, hr]
  · intro h
    unfold applyEnvironmentOverrides
    rw [later_overrides_keep_port]
    unfold overridePort
    rcases h with h | h | ⟨p, hp, hr⟩
    · simp [h]
    · simp only [h]
      split <;> rfl
    · have hr2 : ¬ (p > 0 ∧ p ≤ 65535) := by omega
      simp only [hp, hr2, if_false]
      split <;> rfl

/-- Witness of `overrides_defaultPort`: port 9090 in the environment, as in
the test of the package. -/
theorem overrides_defaultPort_witness :
    (applyEnvironmentOverrides (sampleEnviron [("GOOGLE_AUTH_WIZARD_PORT", "9090")])
      GetDefaultConfig).Server.DefaultPort = 9090 :=
  (overrides_defaultPort (sampleEnviron [("GOOGLE_AUTH_WIZARD_PORT", "9090")])
    GetDefaultConfig).1 9090 (by decide) (by decide) (by decide)

/-- C30 (evaluation at the failing input): the default configuration is
accepted by `ValidateConfig`; with `GOOGLE_AUTH_WIZARD_SERVER_TIMEOUT=0s` in
the environment `applyEnvironmentOverrides` sets the server timeout to 0 and
the result is refused; likewise with `GOOGLE_AUTH_WIZARD_SCOPE_TIMEOUT=-5s`. -/
theorem overrides_break_validity :
    ValidateConfig sampleFmtDuration GetDefaultConfig = none ∧
    ((applyEnvironmentOverrides (sampleEnviron [("GOOGLE_AUTH_WIZARD_SERVER_TIMEOUT", "0s")])
        GetDefaultConfig).Server.ServerTimeout = 0 ∧
      ValidateConfig sampleFmtDuration
        (applyEnvironmentOverrides (sampleEnviron [("GOOGLE_AUTH_WIZARD_SERVER_TIMEOUT", "0s")])
          GetDefaultConfig) =
        some (.msg "invalid serverTimeout: 0ns (must be greater than 0)")) ∧
    ValidateConfig sampleFmtDuration
        (applyEnvironmentOverrides (sampleEnviron [("GOOGLE_AUTH_WIZARD_SCOPE_TIMEOUT", "-5s")])
          GetDefaultConfig) =
      some (.msg "invalid scopeTimeout: -5000000000ns (must be greater than 0)") := by
  decide

end config

/-! ## Properties of the logger -/

namespace logger

/-- C27 (evaluation at the failing input): after `SetLevel(LEVEL_DEBUG)`,
`IsDebug` is true and `IsVerbose` is false; after `SetLevel(LEVEL_INFO)` both are
false. -/
theorem isVerbose_differs_at_debug :
    (IsDebug (SetLevel defaultLogger LEVEL_DEBUG) = true ∧
      IsVerbose (SetLevel defaultLogger LEVEL_DEBUG) = false) ∧
    (IsDebug (SetLevel defaultLogger LEVEL_INFO) = false ∧
      IsVerbose (SetLevel defaultLogger LEVEL_INFO) = false) := by
  decide

theorem isVerbose_eq_isDebug_iff (globalLogger : Logger) (level : Int) :
    IsVerbose (SetLevel globalLogger level) = IsDebug (SetLevel globalLogger level) ↔
      level ≠ 3 := by
  unfold IsVerbose IsDebug SetLevel LEVEL_VERBOSE LEVEL_DEBUG
  simp only [decide_eq_decide]
  show ((level : Int) ≥ 4 ↔ (level : Int) ≥ 3) ↔ (level : Int) ≠ 3
  constructor
  · intro h hl
    rw [hl] at h
    exact absurd (h.mpr (by decide)) (by decide)
  · intro hne
    have hne2 : ¬ (level : Int) = 3 := hne
    constructor <;> intro h <;> omega

end logger

/-! ## Order of the handler's effects -/

namespace auth

/-- C23 (evaluation at the failing inputs): on the fresh channels of capacity 1,
for a request without code and for a request whose exchange fails, the handler
first sends the error on the error channel and only then calls `http.Error`;
only on success is the response written before the token is sent. -/
theorem handler_sends_before_error_response :
    (createCallbackHandler (fun _ => .ok sampleToken) (Chan.make 1) (Chan.make 1)
        { query := [] }).events =
      [.sendErr (.msg "missing authorization code"),
        .httpError "Missing authorization code" 400] ∧
    (createCallbackHandler (fun _ => .error (.msg "oauth2: cannot fetch token"))
        (Chan.make 1) (Chan.make 1) { query := [("code", "test-code")] }).events =
      [.exchange "test-code",
        .sendErr (.msg "code exchange failed: oauth2: cannot fetch token"),
        .httpError "Code exchange failed" 500] ∧
    (createCallbackHandler (fun _ => .ok sampleToken) (Chan.make 1) (Chan.make 1)
        { query := [("code", "4/0Adeu5B")] }).events =
      [.exchange "4/0Adeu5B", .headerSet "Content-Type" "text/html; charset=utf-8",
        .fprint SUCCESS_HTML_TEMPLATE, .sendToken sampleToken] :=
  ⟨by decide, by decide, rfl⟩

end auth

/-! ## The access-token preview -/

namespace main

open storage auth

/-- C29 (evaluation at the failing inputs): outside debug mode, with a token of
three bytes reused from the cache, and likewise with such a token freshly
exchanged, `run` ends in the run-time panic of the slice `AccessToken[:10]` and
prints no preview; with the sample token of 14 bytes the preview is its first
10 bytes followed by "...". -/
theorem preview_panics_on_short_token :
    ((run shortTokenRun config.GetDefaultConfig).panicked = true ∧
      (run shortTokenRun config.GetDefaultConfig).token =
        some { AccessToken := "abc", TokenType := "Bearer", RefreshToken := "", Expiry := 0 } ∧
      (run shortTokenRun config.GetDefaultConfig).effects =
        [.fetchScopes, .terminalRun,
          .printScopes ["https://www.googleapis.com/auth/gmail.readonly"],
          .cacheExists, .cacheLoad]) ∧
    ((run shortExchangeRun config.GetDefaultConfig).panicked = true ∧
      (run shortExchangeRun config.GetDefaultConfig).token =
        some { AccessToken := "abc", TokenType := "Bearer", RefreshToken := "", Expiry := 0 }) ∧
    ((run (sampleRun false .deadline) config.GetDefaultConfig).panicked = false ∧
      (run (sampleRun false .deadline) config.GetDefaultConfig).effects.getLast? =
        some (.printPreview (goBytes "ya29.a0AfB" ++ goBytes "..."))) := by
  decide

theorem showToken_panics_iff (env : RunEnv) (token : Token) (effects : List RunEffect)
    (fs : CacheFile) :
    (showToken env token effects fs).panicked = true ↔
      env.isDebug = false ∧ (goBytes token.AccessToken).length < 10 := by
  unfold showToken
  by_cases hd : env.isDebug = true
  · simp [hd]
  · by_cases hl : (goBytes token.AccessToken).length < 10
    · simp [hd, hl]
    · simp [hd, hl]

end main

/-! ## Properties of the scope catalogue -/

namespace googlescopes

theorem mapSet_new (gs : GoogleServices) (k : String) (v : List Scope)
    (h : k ∉ gs.map Prod.fst) : mapSet gs k v = gs ++ [(k, v)] := by
  induction gs with
  | nil => rfl
  | cons e rest ih =>
    obtain ⟨k1, v1⟩ := e
    have hk : ¬ k1 = k := fun e => h (by simp [e])
    have hrest : k ∉ rest.map Prod.fst := fun hm => h (by simp at hm ⊢; exact Or.inr hm)
    simp [mapSet, hk, ih hrest]

theorem foldl_mapSet (f : apiInfoResponse → List Scope) :
    ∀ (l : List (String × apiInfoResponse)) (acc : GoogleServices),
      (acc.map Prod.fst ++ l.map Prod.fst).Nodup →
      l.foldl (fun gs api => mapSet gs api.1 (f api.2)) acc =
        acc ++ l.map (fun api => (api.1, f api.2)) := by
  intro l
  induction l with
  | nil => intro acc _; simp
  | cons api rest ih =>
    intro acc hnd
    have hnew : api.1 ∉ acc.map Prod.fst := by
      intro hm
      have := List.nodup_append.mp hnd
      exact this.2.2 hm (by simp)
    rw [List.foldl_cons, mapSet_new acc api.1 (f api.2) hnew]
    rw [ih (acc ++ [(api.1, f api.2)]) (by simpa [List.append_assoc] using hnd)]
    simp

theorem collectScopes_eq (apiInfo : apiInfoResponse) :
    collectScopes apiInfo =
      apiInfo.Scopes.flatMap (fun scopeMap =>
        scopeMap.map (fun entry => { URL := entry.1, Description := entry.2.Description })) := by
  have inner : ∀ (sm : List (String × scopeResponse)) (acc : List Scope),
      sm.foldl
        (fun scopes entry => scopes ++ [{ URL := entry.1, Description := entry.2.Description }])
        acc =
      acc ++ sm.map (fun entry => ({ URL := entry.1, Description := entry.2.Description } : Scope)) := by
    intro sm
    induction sm with
    | nil => intro acc; simp
    | cons e rest ih => intro acc; simp [List.foldl_cons, ih]
  have hfun : (fun (scopes : List Scope) (scopeMap : List (String × scopeResponse)) =>
      scopeMap.foldl
        (fun scopes entry => scopes ++ [{ URL := entry.1, Description := entry.2.Description }])
        scopes) =
      (fun scopes scopeMap => scopes ++ scopeMap.map
        (fun entry => ({ URL := entry.1, Description := entry.2.Description } : Scope))) := by
    funext scopes scopeMap
    exact inner scopeMap scopes
  have outer : ∀ (l : List (List (String × scopeResponse))) (acc : List Scope),
      l.foldl
        (fun scopes scopeMap => scopes ++ scopeMap.map
          (fun entry => ({ URL := entry.1, Description := entry.2.Description } : Scope))) acc =
      acc ++ l.flatMap (fun scopeMap =>
        scopeMap.map (fun entry => ({ URL := entry.1, Description := entry.2.Description } : Scope))) := by
    intro l
    induction l with
    | nil => intro acc; simp
    | cons sm rest ih => intro acc; simp [List.foldl_cons, ih]
  unfold collectScopes
  rw [hfun, outer]
  simp

theorem mapGet_map (f : apiInfoResponse → List Scope) :
    ∀ (l : List (String × apiInfoResponse)) (k : String) (info : apiInfoResponse),
      (l.map Prod.fst).Nodup → (k, info) ∈ l →
      mapGet (l.map (fun api => (api.1, f api.2))) k = some (f info) := by
  intro l
  induction l with
  | nil => intro k info _ hm; simp at hm
  | cons e rest ih =>
    intro k info hnd hm
    obtain ⟨k1, v1⟩ := e
    simp only [List.map_cons, List.nodup_cons] at hnd
    simp only [List.mem_cons, Prod.mk.injEq] at hm
    rcases hm with ⟨hk, hv⟩ | hm
    · subst hk; subst hv
      simp [mapGet]
    · have hne : ¬ k1 = k := by
        intro e
        subst e
        exact hnd.1 (List.mem_map_of_mem Prod.fst hm)
      simp only [List.map_cons, mapGet, hne, if_false]
      exact ih k info hnd.2 hm

theorem urlLess_irrefl (a : Scope) : urlLess a a = false := by
  simp [urlLess]

theorem urlLess_trans (a b c : Scope) (hab : urlLess a b = true) (hbc : urlLess b c = true) :
    urlLess a c = true := by
  simp only [urlLess, decide_eq_true_eq] at hab hbc ⊢
  exact lt_trans hab hbc

theorem urlLess_negTrans (a b c : Scope) (hab : urlLess a b = false)
    (hbc : urlLess b c = false) : urlLess a c = false := by
  simp only [urlLess, decide_eq_false_iff_not, not_lt] at hab hbc ⊢
  exact le_trans hbc hab

/-- C24: for an answer of the endpoint given as a map (distinct service names),
and `sort.Slice` keeping its contract for every comparison that is a strict
weak ordering (never less than itself, transitive, and with a transitive
"not less": then the result is a permutation of the slice in which no element
is followed by one that is less), `reorganizeScopes` returns a catalogue with
exactly the same service names, and the scope list of each service is in
non-decreasing order of url and is a permutation of all the (url, description)
entries of the scope maps of that service. -/
theorem reorganizeScopes_sorted_perm
    (sortSlice : (Scope → Scope → Bool) → List Scope → List Scope)
    (tempAPIs : List (String × apiInfoResponse))
    (hkeys : (tempAPIs.map Prod.fst).Nodup)
    (hsort : ∀ less : Scope → Scope → Bool,
      (∀ a, less a a = false) →
      (∀ a b c, less a b = true → less b c = true → less a c = true) →
      (∀ a b c, less a b = false → less b c = false → less a c = false) →
      ∀ l, (sortSlice less l).Perm l ∧
        (sortSlice less l).Pairwise (fun a b => less b a = false)) :
    (reorganizeScopes sortSlice tempAPIs).map Prod.fst = tempAPIs.map Prod.fst ∧
    ∀ apiName apiInfo, (apiName, apiInfo) ∈ tempAPIs →
      ∃ scopes, mapGet (reorganizeScopes sortSlice tempAPIs) apiName = some scopes ∧
        scopes.Pairwise (fun a b => ¬ b.URL < a.URL) ∧
        scopes.Perm (apiInfo.Scopes.flatMap (fun scopeMap =>
          scopeMap.map (fun entry => { URL := entry.1, Description := entry.2.Description }))) := by
  have hurl : ∀ l, (sortSlice urlLess l).Perm l ∧
      (sortSlice urlLess l).Pairwise (fun a b => ¬ b.URL < a.URL) := by
    intro l
    have h := hsort urlLess urlLess_irrefl urlLess_trans urlLess_negTrans l
    refine ⟨h.1, List.Pairwise.imp ?_ h.2⟩
    intro a b hba
    simpa [urlLess] using hba
  have hres : reorganizeScopes sortSlice tempAPIs =
      tempAPIs.map (fun api => (api.1, sortSlice urlLess (collectScopes api.2))) := by
    unfold reorganizeScopes
    rw [foldl_mapSet (fun info => sortSlice urlLess (collectScopes info)) tempAPIs []
      (by simpa using hkeys)]
    simp
  rw [hres]
  refine ⟨by simp [Function.comp_def], ?_⟩
  intro apiName apiInfo hm
  refine ⟨sortSlice urlLess (collectScopes apiInfo), ?_, (hurl _).2, ?_⟩
  · exact mapGet_map (fun info => sortSlice urlLess (collectScopes info)) tempAPIs apiName
      apiInfo hkeys hm
  · rw [← collectScopes_eq]
    exact (hurl _).1

theorem sampleSortSlice_contract (less : Scope → Scope → Bool)
    (hirr : ∀ a, less a a = false)
    (htr : ∀ a b c, less a b = true → less b c = true → less a c = true)
    (hneg : ∀ a b c, less a b = false → less b c = false → less a c = false)
    (l : List Scope) :
    (sampleSortSlice less l).Perm l ∧
    (sampleSortSlice less l).Pairwise (fun a b => less b a = false) := by
  unfold sampleSortSlice
  refine ⟨List.perm_insertionSort _ l, ?_⟩
  have htotal : IsTotal Scope (fun a b => less b a = false) :=
    ⟨fun a b => by
      cases hba : less b a with
      | false => exact Or.inl rfl
      | true =>
        cases hab : less a b with
        | false => exact Or.inr rfl
        | true =>
          have := htr a b a hab hba
          rw [hirr a] at this
          exact absurd this (by decide)⟩
  have htrans : IsTrans Scope (fun a b => less b a = false) :=
    ⟨fun a b c hab hbc => hneg c b a hbc hab⟩
  exact List.sorted_insertionSort (fun a b : Scope => less b a = false) l

theorem sampleAPIs_gmail :
    mapGet (reorganizeScopes sampleSortSlice sampleAPIs) "Gmail API" =
      some [ { URL := "https://www.googleapis.com/auth/gmail.readonly"
               Description := "Read email messages" },
             { URL := "https://www.googleapis.com/auth/gmail.send"
               Description := "Send email messages" } ] := by
  have h : "https://www.googleapis.com/auth/gmail.readonly" <
      "https://www.googleapis.com/auth/gmail.send" := by
    rw [String.lt_iff_toList_lt]
    decide
  simp [reorganizeScopes, sampleAPIs, mapSet, collectScopes, sampleSortSlice, urlLess, mapGet,
    List.insertionSort, List.orderedInsert, h]

/-- Witness of `reorganizeScopes_sorted_perm`: the sample answer with the
insertion sort; the catalogue has the services of the answer, and the two
scopes of Gmail come out in the order of their urls, readonly before send. -/
theorem reorganizeScopes_sorted_perm_witness :
    (sampleAPIs.map Prod.fst).Nodup ∧
    ((reorganizeScopes sampleSortSlice sampleAPIs).map Prod.fst = sampleAPIs.map Prod.fst ∧
      ∀ apiName apiInfo, (apiName, apiInfo) ∈ sampleAPIs →
        ∃ scopes, mapGet (reorganizeScopes sampleSortSlice sampleAPIs) apiName = some scopes ∧
          scopes.Pairwise (fun a b => ¬ b.URL < a.URL) ∧
          scopes.Perm (apiInfo.Scopes.flatMap (fun scopeMap =>
            scopeMap.map
              (fun entry => { URL := entry.1, Description := entry.2.Description })))) ∧
    mapGet (reorganizeScopes sampleSortSlice sampleAPIs) "Gmail API" =
      some [ { URL := "https://www.googleapis.com/auth/gmail.readonly"
               Description := "Read email messages" },
             { URL := "https://www.googleapis.com/auth/gmail.send"
               Description := "Send email messages" } ] :=
  ⟨by decide,
    reorganizeScopes_sorted_perm sampleSortSlice sampleAPIs (by decide) sampleSortSlice_contract,
    sampleAPIs_gmail⟩

end googlescopes

/-! ## Further properties of the scope selector -/

namespace terminal

/-- C21: every message other than the key space received in the Scopes view
leaves `choice` as it is; in particular esc followed by tab, which leaves the
scope view of a service and enters one again, keeps `choice`, so the same
scopes are chosen before and after. -/
theorem choice_unchanged_unless_toggle (lu : ListUpdate) (m : model) (msg : Msg) :
    (¬ (msg = .KeyMsg " " ∧ m.viewState = .ViewScopes) →
      (Update lu m msg).1.choice = m.choice) ∧
    (Update lu (Update lu m (.KeyMsg "esc")).1 (.KeyMsg "tab")).1.choice = m.choice ∧
    (∀ v, v ∈ (Update lu (Update lu m (.KeyMsg "esc")).1 (.KeyMsg "tab")).1.choice ↔
      v ∈ m.choice) := by
  have hback : (Update lu (Update lu m (.KeyMsg "esc")).1 (.KeyMsg "tab")).1.choice =
      m.choice := by
    rw [update_tab, updateTab_choice, update_esc, updateEsc_choice]
  refine ⟨?_, hback, fun v => by rw [hback]⟩
  intro hmsg
  cases msg with
  | WindowSizeMsg w h => rfl
  | other tag => rfl
  | KeyMsg k =>
    by_cases hk : k = " "
    · subst hk
      have hview : ¬ m.viewState = .ViewScopes := fun hv => hmsg ⟨rfl, hv⟩
      rw [update_space]
      simp [updateSpace, hview]
    · unfold Update
      simp only [hk, if_false]
      split
      · rfl
      · split
        · exact updateEsc_choice m
        · split
          · exact updateTab_choice m
          · split
            · exact updateEnter_choice m
            · split <;> rfl

/-- Witness of `choice_unchanged_unless_toggle`: esc in the Scopes view of the
sample catalogue with the Gmail scope chosen. -/
theorem choice_unchanged_unless_toggle_witness :
    (Update sampleListUpdate (afterKeys sampleItems ["tab", " "]) (.KeyMsg "esc")).1.choice =
      (afterKeys sampleItems ["tab", " "]).choice :=
  (choice_unchanged_unless_toggle sampleListUpdate (afterKeys sampleItems ["tab", " "])
    (.KeyMsg "esc")).1 (fun h => absurd h.1 (by decide))

/-- C22 (evaluation at the failing inputs): in the Scopes view of the sample
catalogue, once the key `/` has started the editing of the filter, the status
line reads "Filtering... | Esc to cancel | Enter to apply"; esc then not only
ends the filter but also leads to the Services view and pops the breadcrumb.
From the Confirm view esc under an edited filter leads to the Scopes view in
the same way. -/
theorem esc_while_filtering_changes_view :
    ((Update filterListUpdate (afterKeys sampleItems ["tab"]) (.KeyMsg "/")).1.list.filterState
        = .Filtering ∧
      (Update filterListUpdate (afterKeys sampleItems ["tab"]) (.KeyMsg "/")).1.viewState
        = .ViewScopes ∧
      (Update filterListUpdate (afterKeys sampleItems ["tab"]) (.KeyMsg "/")).1.breadcrumb
        = ["Root", "Gmail"] ∧
      statusLine (Update filterListUpdate (afterKeys sampleItems ["tab"]) (.KeyMsg "/")).1
        = "Filtering... | Esc to cancel | Enter to apply") ∧
    ((Update filterListUpdate
        (Update filterListUpdate (afterKeys sampleItems ["tab"]) (.KeyMsg "/")).1
        (.KeyMsg "esc")).1.viewState = .ViewServices ∧
      (Update filterListUpdate
        (Update filterListUpdate (afterKeys sampleItems ["tab"]) (.KeyMsg "/")).1
        (.KeyMsg "esc")).1.breadcrumb = ["Root"] ∧
      (Update filterListUpdate
        (Update filterListUpdate (afterKeys sampleItems ["tab"]) (.KeyMsg "/")).1
        (.KeyMsg "esc")).1.list.filterState = .Unfiltered) ∧
    ((Update filterListUpdate (afterKeys sampleItems ["tab", " ", "enter"])
        (.KeyMsg "/")).1.viewState = .ViewConfirm ∧
      (Update filterListUpdate
        (Update filterListUpdate (afterKeys sampleItems ["tab", " ", "enter"]) (.KeyMsg "/")).1
        (.KeyMsg "esc")).1.viewState = .ViewScopes ∧
      (Update filterListUpdate
        (Update filterListUpdate (afterKeys sampleItems ["tab", " ", "enter"]) (.KeyMsg "/")).1
        (.KeyMsg "esc")).1.breadcrumb = ["Root", "Gmail"]) := by
  decide

theorem esc_in_services (lu : ListUpdate) (m : model) (h : m.viewState = .ViewServices) :
    (Update lu m (.KeyMsg "esc")).1.viewState = m.viewState ∧
    (Update lu m (.KeyMsg "esc")).1.breadcrumb = m.breadcrumb := by
  rw [update_esc]
  simp [updateEsc, h]

end terminal

end GoogleAuthWizard
